import Mathlib

/-!
Verification of the promethia_v2 training-workout core: the duration parser,
unit mappers, workout-block normalizer (`core/event_normalization.py`), the
model-level workout validator (`core/events.py`, `Training`) and the
serializer-level validator (`core/serializers.py`, `TrainingDataValidator`),
plus the athlete-resolution rule of `EventCreateSerializer._determine_athlete`.

JSON values decoded by Python are embedded as `JVal`; Python floats are
modelled as rationals.  Python code that can raise (attribute/key/type
errors on dynamically typed values) is embedded in `Except String`.
-/

namespace Promethia

/-- A JSON value as decoded by Python: `null`, booleans, ints, floats
(modelled as rationals), strings, arrays, objects (ordered key/value lists,
keys unique as produced by `json.loads`). -/
inductive JVal where
  | null
  | bool (b : Bool)
  | int (n : ℤ)
  | num (q : ℚ)
  | str (s : String)
  | arr (xs : List JVal)
  | obj (fields : List (String × JVal))
deriving Repr

/-- Python truthiness of a decoded JSON value. -/
def truthy : JVal → Bool
  | .null => false
  | .bool b => b
  | .int n => n ≠ 0
  | .num q => q ≠ 0
  | .str s => s ≠ ""
  | .arr xs => !xs.isEmpty
  | .obj fs => !fs.isEmpty

/-- Key membership in an object field list. -/
def hasKey (fs : List (String × JVal)) (k : String) : Bool :=
  fs.any (fun p => p.1 = k)

/-- First-match lookup in an object field list (`dict` lookup: JSON keys are unique). -/
def dlookup (fs : List (String × JVal)) (k : String) : Option JVal :=
  (fs.find? (fun p => p.1 = k)).map (fun p => p.2)

/-- `dict.get(k)`: `none` when the key is absent (a stored JSON `null`
comes back as `some .null`, matching Python where both read as `None`
only via `is None`, tested by `is_none` below). -/
def dget (fs : List (String × JVal)) (k : String) : Option JVal :=
  dlookup fs k

/-- Python `x is None` on the result of a `dict.get`: true when the key is
absent or holds JSON `null`. -/
def is_none : Option JVal → Bool
  | none => true
  | some .null => true
  | _ => false

/-- Python truthiness of a `dict.get` result (`None` is falsy). -/
def truthyO : Option JVal → Bool
  | none => false
  | some v => truthy v

/-- Python `a or b` on two `dict.get` results. -/
def pyOrO (a b : Option JVal) : Option JVal :=
  if truthyO a then a else b

/-- Python `a or d` with a (truthy or not) literal default. -/
def pyOrD (a : Option JVal) (d : JVal) : JVal :=
  match a with
  | some v => if truthy v then v else d
  | none => d

/-! ### Characters and strings (ASCII, as used by the source) -/

/-- ASCII decimal digit (`str.isdigit` on the ASCII inputs the source handles). -/
def isAsciiDigit (c : Char) : Bool :=
  48 ≤ c.toNat ∧ c.toNat ≤ 57

/-- Numeric value of a digit list (`int` on a digit string). -/
def digitsVal (l : List Char) : ℕ :=
  l.foldl (fun a c => a * 10 + (c.toNat - 48)) 0

/-- ASCII lower-casing of one character (`str.lower`). -/
def charLower (c : Char) : Char :=
  if 65 ≤ c.toNat ∧ c.toNat ≤ 90 then Char.ofNat (c.toNat + 32) else c

/-- ASCII upper-casing of one character (`str.upper`). -/
def charUpper (c : Char) : Char :=
  if 97 ≤ c.toNat ∧ c.toNat ≤ 122 then Char.ofNat (c.toNat - 32) else c

/-- ASCII letter test (for `str.title`). -/
def isAsciiAlpha (c : Char) : Bool :=
  (65 ≤ c.toNat ∧ c.toNat ≤ 90) ∨ (97 ≤ c.toNat ∧ c.toNat ≤ 122)

def strLower (s : String) : String :=
  String.mk (s.data.map charLower)

def strUpper (s : String) : String :=
  String.mk (s.data.map charUpper)

/-- Whitespace stripped by Python `str.strip()` (the ASCII portion). -/
def isPyWhitespace (c : Char) : Bool :=
  c.toNat = 32 ∨ (9 ≤ c.toNat ∧ c.toNat ≤ 13)

def pyStrip (s : String) : String :=
  String.mk (((s.data.dropWhile isPyWhitespace).reverse.dropWhile isPyWhitespace).reverse)

/-- `str.title` on the lower-case block-type names the normalizer produces:
the first character of each ASCII-letter run is upper-cased, the rest
lower-cased. -/
def titleChars : Bool → List Char → List Char
  | _, [] => []
  | prevAlpha, c :: rest =>
    if isAsciiAlpha c then
      (if prevAlpha then charLower c else charUpper c) :: titleChars true rest
    else
      c :: titleChars false rest

def pyTitle (s : String) : String :=
  String.mk (titleChars false s.data)

/-- `sep`-splitting of a character list (`str.split(sep)` for a one-character
separator, which is the only form the source uses). -/
def splitOnCharAux (sep : Char) : List Char → List Char → List (List Char)
  | [], acc => [acc.reverse]
  | c :: rest, acc =>
    if c = sep then acc.reverse :: splitOnCharAux sep rest []
    else splitOnCharAux sep rest (c :: acc)

def pySplitChar (s : String) (sep : Char) : List String :=
  (splitOnCharAux sep s.data []).map String.mk

def listPrefixOf : List Char → List Char → Bool
  | [], _ => true
  | _ :: _, [] => false
  | a :: as, b :: bs => a = b ∧ listPrefixOf as bs

/-- Contiguous-substring test (Python `needle in haystack` on strings). -/
def listInfixOf (n : List Char) : List Char → Bool
  | [] => n.isEmpty
  | c :: t => listPrefixOf n (c :: t) || listInfixOf n t

def substrOccurs (needle hay : String) : Bool :=
  listInfixOf needle.data hay.data

/-! ### Python numbers

Python floats are modelled as rationals.  `Rat` arithmetic in Lean is
kernel-opaque, so sign tests are phrased through the `num`/`den`
projections of the (always normalized) rational; `qpos q` is `0 < q`,
`qltz q` is `q < 0` and `qgtI n q` is `(n : ℚ) < q` (bridging lemmas are
proved below). -/

def qpos (q : ℚ) : Bool := 0 < q.num

def qltz (q : ℚ) : Bool := q.num < 0

def qgtI (n : ℤ) (q : ℚ) : Bool := n * (q.den : ℤ) < q.num

/-- Python `float(s)` on a string: optional sign, `digits`, `digits.digits`,
`.digits` or `digits.` after stripping whitespace.  (Exponent forms and
`inf`/`nan`, which the repository never feeds in, are not modelled.) -/
def parseUnsignedDec (body : List Char) : Option ℚ :=
  match splitOnCharAux '.' body [] with
  | [ip] =>
    if ip ≠ [] ∧ ip.all isAsciiDigit then some ((digitsVal ip : ℕ) : ℚ) else none
  | [ip, fp] =>
    if (ip ≠ [] ∨ fp ≠ []) ∧ ip.all isAsciiDigit ∧ fp.all isAsciiDigit then
      if fp = [] then some ((digitsVal ip : ℕ) : ℚ)
      else some (mkRat (digitsVal ip * 10 ^ fp.length + digitsVal fp) (10 ^ fp.length))
    else none
  | _ => none

def pyFloatStr (s : String) : Option ℚ :=
  match (pyStrip s).data with
  | '+' :: rest => parseUnsignedDec rest
  | '-' :: rest => (parseUnsignedDec rest).map (fun q => -q)
  | rest => parseUnsignedDec rest

/-- Python `float(v)` on a decoded JSON value; `none` models the
`TypeError`/`ValueError` the callers catch. -/
def pyFloatOf : JVal → Option ℚ
  | .int n => some ((n : ℤ) : ℚ)
  | .num q => some q
  | .bool b => some (if b then 1 else 0)
  | .str s => pyFloatStr s
  | _ => none

/-- Python `int(s)` on a string: optional sign and digits after stripping. -/
def pyIntStr (s : String) : Option ℤ :=
  match (pyStrip s).data with
  | '+' :: rest =>
    if rest ≠ [] ∧ rest.all isAsciiDigit then some ((digitsVal rest : ℕ) : ℤ) else none
  | '-' :: rest =>
    if rest ≠ [] ∧ rest.all isAsciiDigit then some (-((digitsVal rest : ℕ) : ℤ)) else none
  | rest =>
    if rest ≠ [] ∧ rest.all isAsciiDigit then some ((digitsVal rest : ℕ) : ℤ) else none

/-- Python `int(v)` on a decoded JSON value (floats truncate toward zero);
`none` models the `TypeError`/`ValueError` the callers catch. -/
def pyIntOf : JVal → Option ℤ
  | .int n => some n
  | .bool b => some (if b then 1 else 0)
  | .num q => some (Int.tdiv q.num (q.den : ℤ))
  | .str s => pyIntStr s
  | _ => none

/-- `isinstance(v, (int, float))` — Python booleans are ints. -/
def isPyNumber : JVal → Bool
  | .int _ => true
  | .num _ => true
  | .bool _ => true
  | _ => false

/-- `isinstance(v, int)` — Python booleans are ints. -/
def isPyInt : JVal → Bool
  | .int _ => true
  | .bool _ => true
  | _ => false

/-- Numeric value of a `JVal` satisfying `isPyNumber` (0 otherwise). -/
def toQ : JVal → ℚ
  | .int n => (n : ℚ)
  | .num q => q
  | .bool b => if b then 1 else 0
  | _ => 0

/-- Integer value of a `JVal` satisfying `isPyInt` (0 otherwise). -/
def toZ : JVal → ℤ
  | .int n => n
  | .bool b => if b then 1 else 0
  | _ => 0

/-! ### Dynamic dictionary/sequence access

All Python operations that can raise on dynamically typed values are
embedded in `Except String`; a raised `TypeError`/`AttributeError`/
`KeyError` (or the validator's own `ValidationError`) is an `error`. -/

/-- Python `k in v` for a string key. -/
def pyContains (v : JVal) (k : String) : Except String Bool :=
  match v with
  | .obj fs => .ok (hasKey fs k)
  | .str s => .ok (substrOccurs k s)
  | .arr xs => .ok (xs.any (fun x => match x with | .str s => s = k | _ => false))
  | _ => .error "TypeError: argument is not iterable"

/-- Python `v[k]` for a string key. -/
def pyGetItem (v : JVal) (k : String) : Except String JVal :=
  match v with
  | .obj fs =>
    match dlookup fs k with
    | some x => .ok x
    | none => .error "KeyError"
  | _ => .error "TypeError: not subscriptable by a string"

/-- Python `v.get(k)` (only dicts have `get`). -/
def pyGet (v : JVal) (k : String) : Except String (Option JVal) :=
  match v with
  | .obj fs => .ok (dlookup fs k)
  | _ => .error "AttributeError: get"

/-- Python `v.lower()` (only strings have `lower`). -/
def pyLower (v : JVal) : Except String String :=
  match v with
  | .str s => .ok (strLower s)
  | _ => .error "AttributeError: lower"

/-- Python `v == s` for a string literal: only an equal string is equal. -/
def jvalEqStr (v : JVal) (s : String) : Bool :=
  match v with
  | .str t => t = s
  | _ => false

/-- Python `v in l` for a list of string literals (`not in` checks on the
unit/zone vocabularies): only an equal string compares equal. -/
def jvalInStrs (v : JVal) (l : List String) : Bool :=
  match v with
  | .str s => l.any (fun t => t = s)
  | _ => false

/-! ### `core/event_normalization.py`: duration parsing and unit mapping -/

/-- `_extract_first_int(value, key)`: all digits of the segment before the
first occurrence of `key`, else 0.  (The source passes one-character key
strings; despite its docstring it concatenates every digit in the
segment, e.g. the segment `PT1H30` for key `M` yields 130.) -/
def _extract_first_int (value : String) (key : Char) : ℕ :=
  let segment := (pySplitChar value key).headD ""
  let digits := segment.data.filter isAsciiDigit
  if digits.isEmpty then 0 else digitsVal digits

/-- `parse_minutes_duration`, restricted to the string/None inputs the
dispatcher feeds it (the source would `str()` other types).  The result is
the `timedelta` expressed in seconds. -/
def parse_minutes_duration (duration : Option String) : Option ℚ :=
  match duration with
  | none => none
  | some d =>
    if d = "" ∨ d = "null" then none
    else
      let value := pyStrip d
      if value = "" then none
      else if (strUpper value).data.headD ' ' = 'P' then
        let hours := _extract_first_int value 'H'
        let minutes := _extract_first_int value 'M'
        let seconds := _extract_first_int value 'S'
        let total_seconds := hours * 3600 + minutes * 60 + seconds
        if 0 < total_seconds then some ((total_seconds : ℕ) : ℚ) else none
      else
        let parts := pySplitChar value ':'
        if 2 ≤ parts.length ∧ parts.length ≤ 3 ∧
            parts.all (fun p => p ≠ "" ∧ p.data.all isAsciiDigit) then
          let numbers := parts.map (fun p => digitsVal p.data)
          match numbers with
          | [m, s] =>
            let total := m * 60 + s
            if 0 < total then some ((total : ℕ) : ℚ) else none
          | h :: m :: s :: _ =>
            let total := h * 3600 + m * 60 + s
            if 0 < total then some ((total : ℕ) : ℚ) else none
          | _ => none
        else
          match pyFloatStr value with
          | none => none
          | some minutes_value =>
            if qpos minutes_value then some (minutes_value * 60) else none

def _DURATION_UNIT_MAP : List (String × String) :=
  [("min", "minutes"), ("mins", "minutes"), ("minute", "minutes"), ("minutes", "minutes"),
   ("sec", "seconds"), ("secs", "seconds"), ("second", "seconds"), ("seconds", "seconds"),
   ("hr", "hours"), ("hrs", "hours"), ("hour", "hours"), ("hours", "hours")]

def _DISTANCE_UNIT_MAP : List (String × String) :=
  [("m", "meters"), ("meter", "meters"), ("meters", "meters"),
   ("km", "kilometers"), ("k", "kilometers"), ("kilometer", "kilometers"),
   ("kilometers", "kilometers")]

/-- `map_duration_unit`: falsy input maps to `None`; a truthy non-string
raises `AttributeError` at `.strip()`. -/
def map_duration_unit (unit : Option JVal) : Except String (Option String) :=
  if !truthyO unit then .ok none
  else match unit with
    | some (.str s) => .ok (List.lookup (strLower (pyStrip s)) _DURATION_UNIT_MAP)
    | _ => .error "AttributeError: strip"

def map_distance_unit (unit : Option JVal) : Except String (Option String) :=
  if !truthyO unit then .ok none
  else match unit with
    | some (.str s) => .ok (List.lookup (strLower (pyStrip s)) _DISTANCE_UNIT_MAP)
    | _ => .error "AttributeError: strip"

def _INTENSITY_MAP : List (String × String) :=
  [("heart_rate", "HR"), ("hr", "HR"), ("mas", "MAS"), ("fpp", "FPP"), ("css", "CSS")]

/-- `map_intensity_unit`: unlike the sibling mappers this echoes the
original value when the key is unrecognized. -/
def map_intensity_unit (unit : Option JVal) : Except String (Option JVal) :=
  if !truthyO unit then .ok none
  else match unit with
    | some (.str s) =>
      .ok (some (match List.lookup (strLower (pyStrip s)) _INTENSITY_MAP with
        | some v => .str v
        | none => .str s))
    | _ => .error "AttributeError: strip"

/-- `_safe_positive_number`: a positive float if possible, otherwise None. -/
def _safe_positive_number (value : Option JVal) : Option ℚ :=
  match value with
  | none => none
  | some .null => none
  | some (.str "") => none
  | some (.str "null") => none
  | some v =>
    match pyFloatOf v with
    | none => none
    | some q => if qpos q then some q else none

/-- `_ensure_positive_int(value, default)`. -/
def _ensure_positive_int (value : Option JVal) (default : ℤ) : ℤ :=
  match value with
  | none => default
  | some v =>
    match pyIntOf v with
    | none => default
    | some n => if 0 < n then n else default

/-! ### `core/events.py`: the model-level (fail-fast) workout validator

`Training._validate_training_data` raises `ValidationError` on the first
violation; a dynamic-typing crash (`TypeError` on a non-dict) also
propagates as an exception, so both are `Except.error` here.  Error texts
are close paraphrases of the source messages. -/

def TIME_UNITS : List String := ["seconds", "minutes", "hours"]

def DISTANCE_UNITS : List String := ["meters", "kilometers", "miles"]

def ZONE_TYPES : List String := ["HR", "MAS", "FPP", "CSS"]

/-- Fail-fast loop `for f in required: if f not in v: raise`. -/
def validateRequiredSuffix (v : JVal) (pn suffix : String) : List String → Except String Unit
  | [] => .ok ()
  | f :: fs => do
    if !(← pyContains v f) then throw (pn ++ " must have " ++ f ++ suffix)
    validateRequiredSuffix v pn suffix fs

def validateRequired (v : JVal) (pn : String) (fields : List String) : Except String Unit :=
  validateRequiredSuffix v pn "." fields

/-- Collecting loop `for f in fields: if f in v: collected.append(f)`. -/
def collectPresent (v : JVal) : List String → Except String (List String)
  | [] => .ok []
  | f :: fs => do
    let b ← pyContains v f
    let rest ← collectPresent v fs
    .ok (if b then f :: rest else rest)

/-- Fail-fast `for i, x in enumerate(xs, start)` validation loop. -/
def validateListIdx (f : ℕ → JVal → Except String Unit) : ℕ → List JVal → Except String Unit
  | _, [] => .ok ()
  | i, x :: xs => do
    f i x
    validateListIdx f (i + 1) xs

/-- The recurring `if k in v: f(v[k])` guard of the model-level validator. -/
def validateOptField (v : JVal) (k : String) (f : JVal → Except String Unit) :
    Except String Unit := do
  if ← pyContains v k then f (← pyGetItem v k) else pure ()

/-- `Training._validate_zone_type`. -/
def _validate_zone_type (zone_type : JVal) (context_name : String) : Except String Unit :=
  if !jvalInStrs zone_type ZONE_TYPES then
    .error (context_name ++ " zone_type must be one of: HR, MAS, FPP, CSS")
  else .ok ()

/-- `Training._validate_intensity`. -/
def _validate_intensity (intensity : JVal) (context_name : String) : Except String Unit :=
  if !isPyNumber intensity then
    .error (context_name ++ " intensity must be a number.")
  else if qltz (toQ intensity) || qgtI 150 (toQ intensity) then
    .error (context_name ++ " intensity must be between 0 and 150 percent.")
  else .ok ()

/-- `Training._validate_phase`. -/
def _validate_phase (phase : JVal) (phase_name : String) : Except String Unit := do
  if !(← pyContains phase "name") then
    throw (phase_name ++ " must have name.")
  let has_duration ← pyContains phase "duration"
  let has_unit ← pyContains phase "unit"
  if has_duration ∧ !has_unit then
    throw (phase_name ++ " must have unit when duration is specified.")
  else if has_unit ∧ !has_duration then
    throw (phase_name ++ " must have duration when unit is specified.")
  if has_unit then
    let u := (← pyGet phase "unit").getD .null
    if !jvalInStrs u (TIME_UNITS ++ DISTANCE_UNITS) then
      throw (phase_name ++ " unit must be one of the time or distance units")
  validateOptField phase "zone_type" (fun z => _validate_zone_type z phase_name)
  validateOptField phase "intensity" (fun i => _validate_intensity i phase_name)

/-- `Training._validate_work_rest_phase`.  The source branches on whether
the path string `phase_name` contains `rest` or `work`; the only call
sites pass `intervals[i].sub_intervals[j].work` / `....rest`, whose only
occurrence of either word is the final component, so the two substring
tests are passed here as the flag `is_rest` (proved equivalent for the
actual paths by `substrOccurs` evaluation). -/
def _validate_work_rest_phase (phase : JVal) (phase_name : String) (is_rest : Bool) :
    Except String Unit := do
  let required := if is_rest then ["name", "duration", "unit"]
                  else ["name", "type", "duration_or_distance", "unit"]
  validateRequired phase phase_name required
  if !is_rest then
    let phase_type := (← pyGet phase "type").getD .null
    let u := (← pyGet phase "unit").getD .null
    if jvalEqStr phase_type "time" && !jvalInStrs u TIME_UNITS then
      throw (phase_name ++ " with type time must use time units")
    if jvalEqStr phase_type "distance" && !jvalInStrs u DISTANCE_UNITS then
      throw (phase_name ++ " with type distance must use distance units")
  validateOptField phase "zone_type" (fun z => _validate_zone_type z phase_name)
  validateOptField phase "intensity" (fun i => _validate_intensity i phase_name)

/-- `Training._validate_sub_interval`. -/
def _validate_sub_interval (sub_interval : JVal) (sub_interval_name : String) :
    Except String Unit := do
  validateOptField sub_interval "work"
    (fun w => _validate_work_rest_phase w (sub_interval_name ++ ".work") false)
  validateOptField sub_interval "rest"
    (fun r => _validate_work_rest_phase r (sub_interval_name ++ ".rest") true)

/-- `Training._validate_interval`. -/
def _validate_interval (interval : JVal) (interval_name : String) : Except String Unit := do
  if !(← pyContains interval "name") then
    throw (interval_name ++ " must have name.")
  let has_sub_intervals ← pyContains interval "sub_intervals"
  if has_sub_intervals then
    match ← pyGetItem interval "sub_intervals" with
    | .arr xs =>
      if xs.length = 0 then
        throw (interval_name ++ " has sub_intervals but the array is empty.")
      if !(← pyContains interval "repetitions") then
        throw (interval_name ++ " must have repetitions when sub_intervals are specified.")
      let reps ← pyGetItem interval "repetitions"
      if !isPyInt reps ∨ toZ reps ≤ 0 then
        throw (interval_name ++ " repetitions must be a positive integer.")
      let forbidden_fields ← collectPresent interval ["type", "duration_or_distance", "unit"]
      if forbidden_fields ≠ [] then
        throw (interval_name ++ " has sub_intervals but also contains parent-level fields: [" ++
          String.intercalate ", " forbidden_fields ++
          "]. Only name, repetitions, and sub_intervals should be present.")
      validateListIdx
        (fun i s => _validate_sub_interval s
          (interval_name ++ ".sub_intervals[" ++ toString i ++ "]")) 0 xs
    | _ => throw (interval_name ++ " sub_intervals must be a list.")
  else
    validateRequiredSuffix interval interval_name
      " when sub_intervals are not specified." ["type", "duration_or_distance", "unit"]
    let u := (← pyGet interval "unit").getD .null
    if !jvalInStrs u (TIME_UNITS ++ DISTANCE_UNITS) then
      throw (interval_name ++ " unit must be one of the time or distance units")
    let interval_type := (← pyGet interval "type").getD .null
    if jvalEqStr interval_type "time" && !jvalInStrs u TIME_UNITS then
      throw (interval_name ++ " with type time must use time units")
    if jvalEqStr interval_type "distance" && !jvalInStrs u DISTANCE_UNITS then
      throw (interval_name ++ " with type distance must use distance units")
  validateOptField interval "zone_type" (fun z => _validate_zone_type z interval_name)
  validateOptField interval "intensity" (fun i => _validate_intensity i interval_name)

/-- `Training._validate_training_data` on the decoded `training_data` value. -/
def _validate_training_data (data : JVal) : Except String Unit := do
  validateOptField data "warmup" (fun w => _validate_phase w "warmup")
  validateOptField data "intervals" (fun v =>
    match v with
    | .arr xs =>
      validateListIdx
        (fun i iv => _validate_interval iv ("intervals[" ++ toString i ++ "]")) 0 xs
    | _ => throw "Intervals must be a list.")
  validateOptField data "rest_periods" (fun v =>
    match v with
    | .arr xs =>
      validateListIdx
        (fun i r => _validate_phase r ("rest_periods[" ++ toString i ++ "]")) 0 xs
    | _ => throw "Rest periods must be a list.")
  validateOptField data "cooldown" (fun c => _validate_phase c "cooldown")

/-! ### `core/serializers.py`: the serializer-level (error-accumulating)
workout validator, `TrainingDataValidator`.

Each helper guards with `isinstance(x, dict)` first, so no dynamic-typing
crash is possible: the helpers return their error lists and the top level
raises one combined `ValidationError` iff any error accumulated. -/

namespace TDV

def VALID_ZONE_TYPES : List String := ["HR", "MAS", "FPP", "CSS"]

def VALID_UNITS : List String := ["minutes", "seconds", "kilometers", "meters"]

def VALID_INTERVAL_TYPES : List String := ["time", "distance"]

/-- `TrainingDataValidator._validate_phase` (warmup/cooldown). -/
def validatePhase (phase : JVal) (phase_name : String) : List String :=
  match phase with
  | .obj fs =>
    (if !hasKey fs "name" then ["name is required"] else []) ++
    (if !hasKey fs "duration" then ["duration is required"] else []) ++
    (if hasKey fs "duration" then
      let d := (dlookup fs "duration").getD .null
      if !isPyNumber d || !qpos (toQ d) then ["duration must be a positive number"] else []
     else []) ++
    (if hasKey fs "unit" ∧ !jvalInStrs ((dlookup fs "unit").getD .null) VALID_UNITS then
      ["unit must be one of: minutes, seconds, kilometers, meters"] else []) ++
    (if hasKey fs "zone_type" ∧
        !jvalInStrs ((dlookup fs "zone_type").getD .null) VALID_ZONE_TYPES then
      ["zone_type must be one of: HR, MAS, FPP, CSS"] else []) ++
    (if hasKey fs "intensity" then
      let iv := (dlookup fs "intensity").getD .null
      if !isPyNumber iv || qltz (toQ iv) || qgtI 100 (toQ iv) then
        ["intensity must be a number between 0 and 100"] else []
     else [])
  | _ => [phase_name ++ " must be an object"]

/-- `TrainingDataValidator._validate_work_phase`. -/
def validateWorkPhase (work : JVal) : List String :=
  match work with
  | .obj fs =>
    (["name", "type", "duration_or_distance"].filterMap (fun f =>
      if !hasKey fs f then some (f ++ " is required") else none)) ++
    (if hasKey fs "type" ∧
        !jvalInStrs ((dlookup fs "type").getD .null) VALID_INTERVAL_TYPES then
      ["type must be one of: time, distance"] else []) ++
    (if hasKey fs "duration_or_distance" then
      let d := (dlookup fs "duration_or_distance").getD .null
      if !isPyNumber d || !qpos (toQ d) then
        ["duration_or_distance must be a positive number"] else []
     else [])
  | _ => ["work must be an object"]

/-- `TrainingDataValidator._validate_rest` (sub-interval rests and
top-level rest periods). -/
def validateRest (rest : JVal) (rest_name : String) : List String :=
  match rest with
  | .obj fs =>
    (if !hasKey fs "duration" then ["duration is required"] else []) ++
    (if hasKey fs "duration" then
      let d := (dlookup fs "duration").getD .null
      if !isPyNumber d || !qpos (toQ d) then ["duration must be a positive number"] else []
     else []) ++
    (if hasKey fs "unit" ∧ !jvalInStrs ((dlookup fs "unit").getD .null) VALID_UNITS then
      ["unit must be one of: minutes, seconds, kilometers, meters"] else [])
  | _ => [rest_name ++ " must be an object"]

/-- `TrainingDataValidator._validate_sub_interval`. -/
def validateSubInterval (sub_interval : JVal) (sub_interval_name : String) : List String :=
  match sub_interval with
  | .obj fs =>
    (match dlookup fs "work" with
     | some w => (validateWorkPhase w).map (fun e => "work." ++ e)
     | none => []) ++
    (match dlookup fs "rest" with
     | some r => (validateRest r "rest").map (fun e => "rest." ++ e)
     | none => [])
  | _ => [sub_interval_name ++ " must be an object"]

/-- `TrainingDataValidator._validate_interval`. -/
def validateInterval (interval : JVal) (interval_name : String) : List String :=
  match interval with
  | .obj fs =>
    (if !hasKey fs "name" then ["name is required"] else []) ++
    (if hasKey fs "sub_intervals" then
      let sv := (dlookup fs "sub_intervals").getD .null
      (match sv with
       | .arr xs =>
         if xs.isEmpty then
           ["sub_intervals array is empty - either add work/rest phases or remove sub_intervals field"]
         else []
       | _ => ["sub_intervals must be a list"]) ++
      (if !hasKey fs "repetitions" then
        ["repetitions is required when sub_intervals are specified"]
       else
        let r := (dlookup fs "repetitions").getD .null
        if !isPyInt r || toZ r ≤ 0 then ["repetitions must be a positive integer"] else []) ++
      (let ff := ["type", "duration_or_distance", "unit"].filter (fun f => hasKey fs f)
       if !ff.isEmpty then
         ["has sub_intervals but also contains parent-level fields: [" ++
          String.intercalate ", " ff ++
          "]. Only name, repetitions, and sub_intervals should be present."]
       else []) ++
      (match dlookup fs "sub_intervals" with
       | some (.arr xs) =>
         (xs.enum.map (fun p =>
           (validateSubInterval p.2
             (interval_name ++ ".sub_intervals[" ++ toString p.1 ++ "]")).map
             (fun e => "sub_intervals[" ++ toString p.1 ++ "]." ++ e))).flatten
       | _ => [])
     else
      (["type", "duration_or_distance", "unit", "repetitions"].filterMap (fun f =>
        if !hasKey fs f then some (f ++ " is required") else none)) ++
      (if hasKey fs "type" ∧
          !jvalInStrs ((dlookup fs "type").getD .null) VALID_INTERVAL_TYPES then
        ["type must be one of: time, distance"] else []) ++
      (if hasKey fs "duration_or_distance" then
        let d := (dlookup fs "duration_or_distance").getD .null
        if !isPyNumber d || !qpos (toQ d) then
          ["duration_or_distance must be a positive number"] else []
       else []) ++
      (if hasKey fs "repetitions" then
        let r := (dlookup fs "repetitions").getD .null
        if !isPyInt r || toZ r ≤ 0 then ["repetitions must be a positive integer"] else []
       else []))
  | _ => [interval_name ++ " must be an object"]

/-- `TrainingDataValidator.validate_training_data`: accumulate every error,
raise one combined `ValidationError` iff any accumulated. -/
def validate_training_data (data : JVal) : Except String Unit :=
  match data with
  | .obj fs =>
    let errors :=
      (if hasKey fs "warmup" then
        (validatePhase ((dlookup fs "warmup").getD .null) "warmup").map
          (fun e => "warmup." ++ e)
       else []) ++
      (match dlookup fs "intervals" with
       | some (.arr xs) =>
         (xs.enum.map (fun p =>
           (validateInterval p.2 ("intervals[" ++ toString p.1 ++ "]")).map
             (fun e => "intervals[" ++ toString p.1 ++ "]." ++ e))).flatten
       | _ => []) ++
      (match dlookup fs "rest_periods" with
       | some (.arr xs) =>
         (xs.enum.map (fun p =>
           (validateRest p.2 ("rest_periods[" ++ toString p.1 ++ "]")).map
             (fun e => "rest_periods[" ++ toString p.1 ++ "]." ++ e))).flatten
       | _ => []) ++
      (if hasKey fs "cooldown" then
        (validatePhase ((dlookup fs "cooldown").getD .null) "cooldown").map
          (fun e => "cooldown." ++ e)
       else [])
    if errors.isEmpty then .ok ()
    else .error ("Training data validation errors: " ++ String.intercalate "; " errors)
  | _ => .error "Training data must be a JSON object."

end TDV

/-! ### `core/event_normalization.py`: `normalize_training_blocks`

The loop threads a state of the single-slot `warmup`/`cooldown` payloads
and the accumulated `intervals`/`rest_periods` lists.  The final dict is
assembled with its optional keys in the canonical order
warmup, cooldown, intervals, rest_periods (Python dict equality ignores
insertion order, so this fixes one representative). -/

structure NormState where
  warmup : Option JVal
  cooldown : Option JVal
  intervals : List JVal
  rest_periods : List JVal

/-- Python `d[k] = v` on a dict: replace in place, else append. -/
def dictSet (fs : List (String × JVal)) (k : String) (v : JVal) : List (String × JVal) :=
  if hasKey fs k then fs.map (fun p => if p.1 = k then (k, v) else p)
  else fs ++ [(k, v)]

/-- `sub_intervals[-1][k] = v` (the last element is always a dict here). -/
def setLastField (subs : List JVal) (k : String) (v : JVal) : List JVal :=
  match subs.getLast? with
  | some (.obj fs) => subs.dropLast ++ [.obj (dictSet fs k v)]
  | some other => subs.dropLast ++ [other]
  | none => subs

/-- One child of a complex-interval block (the body of the inner
`for child in children` loop), acting on the accumulated `sub_intervals`. -/
def processChild (subs : List JVal) (child : JVal) : Except String (List JVal) := do
  let c ← (match child with
    | .obj fs => Except.ok fs
    | _ => Except.error "AttributeError: get on a non-dict child")
  let child_type ← pyLower (pyOrD (dget c "type") (.str ""))
  if child_type = "interval" then
    let child_interval_type := pyOrD (dget c "intervalType") (.str "time")
    let child_duration_value :=
      if jvalEqStr child_interval_type "time" then dget c "duration" else dget c "distance"
    match _safe_positive_number child_duration_value with
    | none => pure subs
    | some n => do
      let child_unit ←
        if jvalEqStr child_interval_type "time" then map_duration_unit (dget c "durationUnit")
        else map_distance_unit (dget c "distanceUnit")
      let base :=
        [("name", pyOrD (dget c "name") (.str "Work")),
         ("type", child_interval_type),
         ("duration_or_distance", JVal.num n),
         ("unit", JVal.str (child_unit.getD
            (if jvalEqStr child_interval_type "time" then "minutes" else "meters")))]
      let child_intensity := dget c "intensity"
      if is_none child_intensity then
        pure (subs ++ [.obj [("work", .obj base)]])
      else do
        let child_zone_type ← map_intensity_unit (dget c "intensityUnit")
        let extra := [("intensity", child_intensity.getD .null)] ++
          (match child_zone_type with
           | some z => if truthy z then [("zone_type", z)] else []
           | none => [])
        pure (subs ++ [.obj [("work", .obj (base ++ extra))]])
  else if child_type = "rest" then
    match _safe_positive_number (dget c "duration") with
    | some n =>
      if !subs.isEmpty then do
        let ru ← map_duration_unit (dget c "durationUnit")
        let rest_payload := JVal.obj
          [("name", pyOrD (dget c "name") (.str "Rest")),
           ("duration", .num n),
           ("unit", .str (ru.getD "seconds"))]
        pure (setLastField subs "rest" rest_payload)
      else pure subs
    | none => pure subs
  else pure subs

def processChildren (subs : List JVal) : List JVal → Except String (List JVal)
  | [] => .ok subs
  | c :: cs => do processChildren (← processChild subs c) cs

/-- The `else` (simple interval) branch of the `interval` case; the
payload is appended only when its `duration_or_distance` is a positive
number (`if payload['duration_or_distance']`). -/
def simpleIntervalStep (st : NormState) (b : List (String × JVal)) (name : JVal)
    (duration_value : Option JVal) (duration_unit : Option String) :
    Except String NormState := do
  let interval_type := pyOrD (dget b "intervalType") (.str "time")
  let interval_unit ←
    if jvalEqStr interval_type "time" then pure duration_unit
    else map_distance_unit (dget b "distanceUnit")
  match _safe_positive_number duration_value with
  | some n =>
    let payload := JVal.obj
      [("name", name),
       ("type", interval_type),
       ("duration_or_distance", .num n),
       ("unit", .str (interval_unit.getD
          (if jvalEqStr interval_type "time" then "minutes" else "meters"))),
       ("repetitions", .int (_ensure_positive_int (dget b "repetitions") 1))]
    pure { st with intervals := st.intervals ++ [payload] }
  | none => pure st

/-- One block of the outer `for block in blocks` loop. -/
def processBlock (st : NormState) (block : JVal) : Except String NormState := do
  let b ← (match block with
    | .obj fs => Except.ok fs
    | _ => Except.error "AttributeError: get on a non-dict block")
  let block_type ← pyLower (pyOrD (dget b "type") (.str ""))
  let name := pyOrD (dget b "name")
    (pyOrD (some (.str (pyTitle block_type))) (.str "Segment"))
  let duration_value := pyOrO (dget b "duration") (dget b "distance")
  let duration_unit ← map_duration_unit (dget b "durationUnit")
  if block_type = "warmup" ∨ block_type = "cooldown" then
    match _safe_positive_number (dget b "duration") with
    | none => pure st
    | some numeric_duration =>
      let phase_payload := JVal.obj
        [("name", name),
         ("duration", .num numeric_duration),
         ("unit", .str (duration_unit.getD "minutes"))]
      if block_type = "warmup" then pure { st with warmup := some phase_payload }
      else pure { st with cooldown := some phase_payload }
  else if block_type = "interval" then
    let children := (dget b "children").getD (.arr [])
    match children with
    | .arr cs =>
      if !cs.isEmpty then do
        let sub_intervals ← processChildren [] cs
        if !sub_intervals.isEmpty then
          let payload := JVal.obj
            [("name", name),
             ("repetitions", .int (_ensure_positive_int (dget b "repetitions") 1)),
             ("sub_intervals", .arr sub_intervals)]
          pure { st with intervals := st.intervals ++ [payload] }
        else pure st
      else
        simpleIntervalStep st b name duration_value duration_unit
    | _ => simpleIntervalStep st b name duration_value duration_unit
  else if block_type = "rest" then
    let numeric_duration := _safe_positive_number (dget b "duration")
    let unit_value := duration_unit.getD "minutes"
    match numeric_duration with
    | some n =>
      pure { st with rest_periods := st.rest_periods ++
        [.obj [("name", name), ("duration", .num n), ("unit", .str unit_value)]] }
    | none => pure st
  else pure st

def processBlocks : NormState → List JVal → Except String NormState
  | st, [] => .ok st
  | st, b :: bs => do processBlocks (← processBlock st b) bs

def buildOutput (st : NormState) : JVal :=
  JVal.obj
    ((match st.warmup with | some w => [("warmup", w)] | none => []) ++
     (match st.cooldown with | some c => [("cooldown", c)] | none => []) ++
     (if st.intervals.isEmpty then [] else [("intervals", JVal.arr st.intervals)]) ++
     (if st.rest_periods.isEmpty then [] else [("rest_periods", JVal.arr st.rest_periods)]))

/-- `normalize_training_blocks(blocks)`. -/
def normalize_training_blocks (blocks : List JVal) : Except String JVal :=
  if blocks.isEmpty then .ok (.obj [])
  else do
    let st ← processBlocks ⟨none, none, [], []⟩ blocks
    pure (buildOutput st)

/-! ### `core/serializers.py`: `EventCreateSerializer._determine_athlete`
with `accounts/models.py` `UserManager.get_by_coach` -/

structure PUser where
  id : ℤ
  user_type : String
  is_active : Bool
deriving DecidableEq, Repr

structure CoachAssignment where
  coach_id : ℤ
  mentee_id : ℤ
  is_active : Bool
deriving DecidableEq, Repr

/-- The relational store the resolution consults: users and coach
assignments. -/
structure Db where
  users : List PUser
  assignments : List CoachAssignment

def PUser.is_athlete (u : PUser) : Bool := u.user_type = "athlete"

def PUser.is_coach (u : PUser) : Bool := u.user_type = "coach"

/-- `UserManager.get_by_coach`: athletes whose id appears among the active
assignments of this coach, filtered to active athlete users. -/
def get_by_coach (db : Db) (coach : PUser) : List PUser :=
  let assigned_mentee_ids :=
    (db.assignments.filter (fun a => a.coach_id = coach.id ∧ a.is_active)).map
      (fun a => a.mentee_id)
  db.users.filter (fun u =>
    u.id ∈ assigned_mentee_ids ∧ u.user_type = "athlete" ∧ u.is_active)

/-- `User.objects.get(id=...)` (ids are unique primary keys). -/
def getUserById (db : Db) (i : ℤ) : Option PUser :=
  db.users.find? (fun u => u.id = i)

inductive AthleteResolution where
  | assigned (u : PUser)
  | validation_error (field msg : String)
deriving DecidableEq, Repr

/-- `EventCreateSerializer._determine_athlete(user, athlete_id)`:
`athlete_id` is the payload's parsed athlete identifier (`None` when
absent/unparsable; Python `if not athlete_id` also treats `0` as absent). -/
def _determine_athlete (db : Db) (user : PUser) (athlete_id : Option ℤ) :
    AthleteResolution :=
  if user.is_athlete then .assigned user
  else if user.is_coach then
    if athlete_id = none ∨ athlete_id = some 0 then
      .validation_error "athlete" "Coach must specify athlete for this event."
    else
      match getUserById db (athlete_id.getD 0) with
      | none => .validation_error "athlete" "Specified athlete does not exist."
      | some athlete =>
        if (get_by_coach db user).any (fun u => u.id = athlete.id) then
          .assigned athlete
        else
          .validation_error "athlete"
            "You do not have permission to create events for this athlete."
  else
    .validation_error "detail" "Only athletes or coaches can create events."

/-! ### Goodness predicates used to state the round-trip property (C1) -/

/-- The `intensity`/`zone_type` material the normalizer copies verbatim out
of a complex-interval child: when a (non-null) `intensity` is present it
must be a number in `[0, 150]`, and the mapped `intensityUnit` (which
`map_intensity_unit` echoes unmapped) must be falsy or a valid zone type.
These are the only child fields the normalizer forwards without
re-validating. -/
def childIntensityOK : JVal → Prop
  | .obj cfs =>
    is_none (dget cfs "intensity") = false →
      (isPyNumber ((dget cfs "intensity").getD .null) = true ∧
       qltz (toQ ((dget cfs "intensity").getD .null)) = false ∧
       qgtI 150 (toQ ((dget cfs "intensity").getD .null)) = false ∧
       ∀ z, map_intensity_unit (dget cfs "intensityUnit") = .ok (some z) →
         truthy z = true → jvalInStrs z ZONE_TYPES = true)
  | _ => True

/-- All complex-interval children of a UI block satisfy `childIntensityOK`. -/
def blockIntensityOK : JVal → Prop
  | .obj bfs =>
    ∀ cs, (dget bfs "children").getD (.arr []) = .arr cs → ∀ c ∈ cs, childIntensityOK c
  | _ => True

/-- A payload the model-level phase validator accepts under any path name. -/
def phaseGood (w : JVal) : Prop :=
  ∀ n, _validate_phase w n = .ok ()

/-- A payload the model-level interval validator accepts under any path name. -/
def intervalGood (iv : JVal) : Prop :=
  ∀ n, _validate_interval iv n = .ok ()

/-- A payload the model-level work-phase validator accepts. -/
def workGood (w : JVal) : Prop :=
  ∀ n, _validate_work_rest_phase w n false = .ok ()

/-- A payload the model-level rest-phase validator accepts. -/
def restGood (r : JVal) : Prop :=
  ∀ n, _validate_work_rest_phase r n true = .ok ()

/-- Every accumulated sub-interval entry is a `work`-only or `work`+`rest`
dict whose phases the model-level validator accepts. -/
def SubsGood (subs : List JVal) : Prop :=
  ∀ s ∈ subs, ∃ w, workGood w ∧
    (s = .obj [("work", w)] ∨ ∃ r, restGood r ∧ s = .obj [("work", w), ("rest", r)])

/-- Normalizer-state invariant: every accumulated payload validates. -/
def stateGood (st : NormState) : Prop :=
  (∀ w, st.warmup = some w → phaseGood w) ∧
  (∀ c, st.cooldown = some c → phaseGood c) ∧
  (∀ iv ∈ st.intervals, intervalGood iv) ∧
  (∀ r ∈ st.rest_periods, phaseGood r)

/-! ### Concrete inputs for the claims -/

/-- The C4 workout: a complex interval that also carries the three
parent-level simple-interval fields. -/
def c4data : JVal := .obj [("intervals", .arr
  [.obj [("name", .str "X"), ("type", .str "time"), ("duration_or_distance", .int 4),
         ("unit", .str "minutes"), ("repetitions", .int 5),
         ("sub_intervals", .arr [.obj [("work", .obj
            [("name", .str "W"), ("type", .str "time"),
             ("duration_or_distance", .int 2), ("unit", .str "minutes")])]])]])]

/-- A simple interval whose unit, `miles`, lies outside the spec enumeration. -/
def c5interval : List (String × JVal) :=
  [("name", .str "X"), ("type", .str "distance"), ("duration_or_distance", .int 5),
   ("unit", .str "miles"), ("repetitions", .int 1)]

def c5data : JVal := .obj [("intervals", .arr [.obj c5interval])]

/-- A simple interval with a nonsense unit, which the serializer-level
validator never checks. -/
def c5furlongsData : JVal := .obj [("intervals", .arr
  [.obj [("name", .str "X"), ("type", .str "distance"), ("duration_or_distance", .int 5),
         ("unit", .str "furlongs"), ("repetitions", .int 1)]])]

/-- A simple interval with no `repetitions` field. -/
def c6interval : List (String × JVal) :=
  [("name", .str "X"), ("type", .str "time"), ("duration_or_distance", .int 4),
   ("unit", .str "minutes")]

def c6data : JVal := .obj [("intervals", .arr [.obj c6interval])]

/-- A sub-interval work phase with a negative `duration_or_distance`. -/
def c7work : List (String × JVal) :=
  [("name", .str "W"), ("type", .str "time"),
   ("duration_or_distance", .int (-5)), ("unit", .str "minutes")]

def c7data : JVal := .obj [("intervals", .arr
  [.obj [("name", .str "X"), ("repetitions", .int 1),
         ("sub_intervals", .arr [.obj [("work", .obj c7work)]])]])]

/-- UI blocks whose complex-interval child carries `intensity = 200`, which
the normalizer forwards verbatim. -/
def c1cexBlocks : List JVal := [.obj
  [("type", .str "interval"),
   ("children", .arr
     [.obj [("type", .str "interval"), ("duration", .int 2), ("intensity", .int 200)]])]]

/-- The blocks of the round-trip witness: warmup, simple interval, complex
interval with an in-range intensity, and a rest block. -/
def c1okBlocks : List JVal :=
  [.obj [("type", .str "warmup"), ("name", .str "Warm Up"), ("duration", .int 10),
         ("durationUnit", .str "min")],
   .obj [("type", .str "interval"), ("name", .str "Tempo"), ("duration", .int 4),
         ("repetitions", .int 5)],
   .obj [("type", .str "interval"), ("name", .str "Main Set"),
         ("children", .arr
           [.obj [("type", .str "interval"), ("intervalType", .str "distance"),
                  ("distance", .int 400), ("intensity", .int 95),
                  ("intensityUnit", .str "heart_rate")],
            .obj [("type", .str "rest"), ("duration", .int 90)]])],
   .obj [("type", .str "rest"), ("duration", .int 2)]]

/-- The C9 scenario block: one complex interval whose children are a
distance work child and a rest child. -/
def c9block : JVal := .obj
  [("type", .str "interval"),
   ("name", .str "Main Set"),
   ("children", .arr
     [.obj [("type", .str "interval"), ("intervalType", .str "distance"),
            ("distance", .int 400)],
      .obj [("type", .str "rest"), ("duration", .int 90)]])]

/-- A rest child with no `durationUnit`. -/
def c10child : JVal := .obj [("type", .str "rest"), ("duration", .int 90)]

/-- A work-only sub-interval entry used to exercise rest attachment. -/
def c10subs : List JVal :=
  [.obj [("work", .obj [("name", .str "Work"), ("type", .str "time"),
                        ("duration_or_distance", .num 2), ("unit", .str "minutes")])]]

/-- Users and assignments for the athlete-resolution witness: a coach (id 1)
with an active assignment to athlete 2 and none to athlete 3. -/
def c8athlete : PUser := ⟨2, "athlete", true⟩

def c8athleteB : PUser := ⟨3, "athlete", true⟩

def c8coach : PUser := ⟨1, "coach", true⟩

def c8db : Db :=
  ⟨[c8coach, c8athlete, c8athleteB], [⟨1, 2, true⟩]⟩

/-- A valid complex interval used to witness the mutual-exclusivity
invariant on a workout both validators accept. -/
def c3interval : List (String × JVal) :=
  [("name", .str "X"), ("repetitions", .int 2),
   ("sub_intervals", .arr [.obj [("work", .obj
      [("name", .str "W"), ("type", .str "time"),
       ("duration_or_distance", .int 2), ("unit", .str "minutes")])]])]

def c3data : JVal := .obj [("intervals", .arr [.obj c3interval])]

/-- The rest payload a complex-interval rest child produces (the
`rest_payload` dict literal of the source). -/
def restPayloadOf (cfs : List (String × JVal)) (q : ℚ) (ru : Option String) : JVal :=
  .obj [("name", pyOrD (dget cfs "name") (.str "Rest")),
        ("duration", .num q),
        ("unit", .str (ru.getD "seconds"))]

/-! ## Supporting lemmas -/

@[simp] theorem except_ok_bind {α β : Type} (a : α) (f : α → Except String β) :
    (Except.ok a >>= f) = f a := rfl

@[simp] theorem except_error_bind {α β : Type} (e : String) (f : α → Except String β) :
    ((Except.error e : Except String α) >>= f) = Except.error e := rfl

@[simp] theorem except_pure_eq_ok {α : Type} (a : α) :
    (pure a : Except String α) = Except.ok a := rfl

@[simp] theorem except_throw_eq_error {α : Type} (e : String) :
    (throw e : Except String α) = Except.error e := rfl

theorem except_bind_ok_iff {α β : Type} (x : Except String α) (f : α → Except String β)
    (b : β) : (x >>= f) = .ok b ↔ ∃ a, x = .ok a ∧ f a = .ok b := by
  cases x <;> simp

/-- `qpos` decides `0 < q`. -/
theorem qpos_iff (q : ℚ) : qpos q = true ↔ 0 < q := by
  simp [qpos, Rat.num_pos]

/-- `qltz` decides `q < 0`. -/
theorem qltz_iff (q : ℚ) : qltz q = true ↔ q < 0 := by
  simp only [qpos, qltz, decide_eq_true_eq]
  constructor
  · intro h
    by_contra hq
    exact absurd (Rat.num_nonneg.2 (not_lt.1 hq)) (not_le.2 h)
  · intro h
    by_contra hn
    exact absurd (Rat.num_nonneg.1 (not_lt.1 hn)) (not_le.2 h)

/-- `qgtI n` decides `(n : ℚ) < q`. -/
theorem qgtI_iff (n : ℤ) (q : ℚ) : qgtI n q = true ↔ (n : ℚ) < q := by
  simp only [qgtI, decide_eq_true_eq]
  constructor
  · intro h
    have hd : (0 : ℚ) < (q.den : ℚ) := by exact_mod_cast q.den_pos
    rw [← Rat.num_div_den q]
    rw [lt_div_iff₀ hd]
    exact_mod_cast h
  · intro h
    have hd : (0 : ℚ) < (q.den : ℚ) := by exact_mod_cast q.den_pos
    rw [← Rat.num_div_den q, lt_div_iff₀ hd] at h
    exact_mod_cast h

theorem validateListIdx_ok_of (f : ℕ → JVal → Except String Unit) (i : ℕ)
    (xs : List JVal) (h : ∀ j x, x ∈ xs → f j x = .ok ()) :
    validateListIdx f i xs = .ok () := by
  induction xs generalizing i with
  | nil => rfl
  | cons x ys ih =>
    simp only [validateListIdx]
    rw [h i x (by simp)]
    simpa using ih _ (fun j y hy => h j y (by simp [hy]))

theorem validateListIdx_ok_mem (f : ℕ → JVal → Except String Unit) (i : ℕ)
    (xs : List JVal) (h : validateListIdx f i xs = .ok ()) :
    ∀ x ∈ xs, ∃ j, f j x = .ok () := by
  induction xs generalizing i with
  | nil => simp
  | cons y ys ih =>
    intro x hx
    simp only [validateListIdx] at h
    rcases (except_bind_ok_iff _ _ _).1 h with ⟨u, hu, hrest⟩
    rcases List.mem_cons.1 hx with rfl | hx'
    · exact ⟨i, by cases u; exact hu⟩
    · exact ih _ hrest x hx'

/-! ## Claim theorems -/

/-- C2: the duration-parsing table evaluated on the code.  Four of the
five rows hold.  On `PT1H30M` the helper `_extract_first_int` concatenates
every digit of the segment before the key (despite its docstring saying
"the first integer preceding the key"), so H yields 1, M yields 130 (from
`PT1H30`) and the absent S yields 130 (from the whole string): the result
is 11530 seconds, not the 5400 the spec's table states. -/
theorem claim_c2_duration_table_eval :
    parse_minutes_duration (some "05:30") = some 330 ∧
    parse_minutes_duration (some "PT1H30M") = some 11530 ∧
    parse_minutes_duration (some "PT1H30M") ≠ some 5400 ∧
    parse_minutes_duration (some "45") = some 2700 ∧
    parse_minutes_duration (some "") = none ∧
    parse_minutes_duration (some "-5") = none := by
  refine ⟨rfl, rfl, ?_, ?_, rfl, rfl⟩
  · rw [show parse_minutes_duration (some "PT1H30M") = some ((11530 : ℕ) : ℚ) from rfl]
    intro h
    have h2 := Option.some.inj h
    norm_num at h2
  · rw [show parse_minutes_duration (some "45") = some ((45 : ℚ) * 60) from rfl]
    exact congrArg some (by norm_num)

/-- C4: on the forbidden-field workout both validation modes fail, with
`type`, `duration_or_distance` and `unit` all named together in a single
combined error message. -/
theorem claim_c4_forbidden_fields :
    (∃ msg, _validate_training_data c4data = .error msg ∧
      substrOccurs "type" msg = true ∧
      substrOccurs "duration_or_distance" msg = true ∧
      substrOccurs "unit" msg = true) ∧
    (∃ msg, TDV.validate_training_data c4data = .error msg ∧
      substrOccurs "type" msg = true ∧
      substrOccurs "duration_or_distance" msg = true ∧
      substrOccurs "unit" msg = true) :=
  ⟨⟨_, rfl, rfl, rfl, rfl⟩, ⟨_, rfl, rfl, rfl, rfl⟩⟩

/-- C5 counterexample: `miles` is outside the spec enumeration of units,
yet the model-level validator accepts a workout using it (its
`DISTANCE_UNITS` also contains `miles`), refuting "for every workout
containing a unit outside this set, validation fails". -/
theorem claim_c5_counterexample :
    dlookup c5interval "unit" = some (.str "miles") ∧
    jvalInStrs (.str "miles") ["seconds", "minutes", "hours", "meters", "kilometers"]
      = false ∧
    _validate_training_data c5data = .ok () :=
  ⟨rfl, rfl, rfl⟩

/-- C6 counterexample: the model-level validator accepts a simple interval
with no `repetitions` field (it never checks `repetitions` on intervals
without `sub_intervals`), refuting "validation fails in both modes". -/
theorem claim_c6_counterexample :
    hasKey c6interval "sub_intervals" = false ∧
    hasKey c6interval "repetitions" = false ∧
    _validate_training_data c6data = .ok () :=
  ⟨rfl, rfl, rfl⟩

/-- C7 counterexample: the model-level validator accepts a sub-interval
work phase with `duration_or_distance = -5` (it checks only presence and
unit/type consistency on sub-interval phases, never positivity), refuting
"fails in both validation modes". -/
theorem claim_c7_counterexample :
    dlookup c7work "duration_or_distance" = some (.int (-5)) ∧
    _validate_training_data c7data = .ok () :=
  ⟨rfl, rfl⟩

/-- C8: athlete resolution at event creation.  An athlete actor is always
assigned the event themselves, whatever athlete id the payload carries; a
coach actor needs an explicit (non-falsy) athlete id resolving to a user
of their active-assignment set (`get_by_coach`), else resolution fails;
any other role always fails. -/
theorem claim_c8_athlete_resolution (db : Db) (user : PUser) (aid : Option ℤ) :
    (user.is_athlete = true → _determine_athlete db user aid = .assigned user) ∧
    (user.is_athlete = false → user.is_coach = true →
      ((aid = none ∨ aid = some 0) →
        _determine_athlete db user aid =
          .validation_error "athlete" "Coach must specify athlete for this event.") ∧
      (∀ i, aid = some i → i ≠ 0 → getUserById db i = none →
        _determine_athlete db user aid =
          .validation_error "athlete" "Specified athlete does not exist.") ∧
      (∀ i a, aid = some i → i ≠ 0 → getUserById db i = some a →
        ((get_by_coach db user).any (fun u => u.id = a.id) = true →
          _determine_athlete db user aid = .assigned a) ∧
        ((get_by_coach db user).any (fun u => u.id = a.id) = false →
          _determine_athlete db user aid = .validation_error "athlete"
            "You do not have permission to create events for this athlete."))) ∧
    (user.is_athlete = false → user.is_coach = false →
      _determine_athlete db user aid =
        .validation_error "detail" "Only athletes or coaches can create events.") := by
  refine ⟨?_, ?_, ?_⟩
  · intro h
    simp [_determine_athlete, h]
  · intro hna hc
    refine ⟨?_, ?_, ?_⟩
    · intro habs
      rcases habs with h | h <;> subst h <;> simp [_determine_athlete, hna, hc]
    · intro i hi hi0 hnone
      subst hi
      simp [_determine_athlete, hna, hc, hi0, hnone]
    · intro i a hi hi0 hsome
      subst hi
      constructor
      · intro hmem
        simp [_determine_athlete, hna, hc, hi0, hsome, hmem]
      · intro hmem
        simp [_determine_athlete, hna, hc, hi0, hsome, hmem]
  · intro hna hnc
    simp [_determine_athlete, hna, hnc]

/-- C8 witness: in the concrete store `c8db` (coach 1 actively assigned
athlete 2, athlete 3 unassigned), an athlete actor keeps the event, coach
1 can act for athlete 2, and fails for athlete 3 or with no id. -/
theorem claim_c8_athlete_resolution_witness :
    _determine_athlete c8db c8athlete (some 3) = .assigned c8athlete ∧
    _determine_athlete c8db c8coach (some 2) = .assigned c8athlete ∧
    _determine_athlete c8db c8coach (some 3) = .validation_error "athlete"
      "You do not have permission to create events for this athlete." ∧
    _determine_athlete c8db c8coach none = .validation_error "athlete"
      "Coach must specify athlete for this event." := by
  refine ⟨(claim_c8_athlete_resolution c8db c8athlete (some 3)).1 rfl, ?_, ?_, ?_⟩
  · exact (((claim_c8_athlete_resolution c8db c8coach (some 2)).2.1 rfl rfl).2.2
      2 c8athlete rfl (by decide) rfl).1 rfl
  · exact (((claim_c8_athlete_resolution c8db c8coach (some 3)).2.1 rfl rfl).2.2
      3 c8athleteB rfl (by decide) rfl).2 rfl
  · exact (((claim_c8_athlete_resolution c8db c8coach none).2.1 rfl rfl).1 (Or.inl rfl))

/-- C9: complex-interval assembly.  (a) a rest child with a positive
duration is attached to the most recently appended sub-interval entry and
silently dropped when none exists yet; (b) a qualifying block emits a
payload with exactly the keys `name`, `repetitions`, `sub_intervals`
(never `type`/`duration_or_distance`/`unit`), and the whole block is
dropped when no child produced a sub-interval; (c) the concrete children
`[interval(distance=400, intervalType=distance), rest(duration=90)]`
yield exactly one sub-interval with both `work` and `rest` populated. -/
theorem claim_c9_complex_assembly :
    (∀ subs cfs q ru,
      pyLower (pyOrD (dget cfs "type") (.str "")) = .ok "rest" →
      _safe_positive_number (dget cfs "duration") = some q →
      map_duration_unit (dget cfs "durationUnit") = .ok ru →
      processChild subs (.obj cfs) =
        .ok (if subs.isEmpty then subs
             else setLastField subs "rest" (restPayloadOf cfs q ru))) ∧
    (∀ st bfs st' cs,
      processBlock st (.obj bfs) = .ok st' →
      pyLower (pyOrD (dget bfs "type") (.str "")) = .ok "interval" →
      (dget bfs "children").getD (.arr []) = .arr cs →
      cs ≠ [] →
      (processChildren [] cs = .ok [] → st' = st) ∧
      (∀ subs, processChildren [] cs = .ok subs → subs ≠ [] →
        st' = { st with intervals := st.intervals ++
          [.obj [("name", pyOrD (dget bfs "name") (.str "Interval")),
                 ("repetitions", .int (_ensure_positive_int (dget bfs "repetitions") 1)),
                 ("sub_intervals", .arr subs)]] })) ∧
    normalize_training_blocks [c9block] = .ok (.obj
      [("intervals", .arr
        [.obj [("name", .str "Main Set"), ("repetitions", .int 1),
               ("sub_intervals", .arr
                 [.obj [("work", .obj [("name", .str "Work"), ("type", .str "distance"),
                                       ("duration_or_distance", .num 400),
                                       ("unit", .str "meters")]),
                        ("rest", .obj [("name", .str "Rest"), ("duration", .num 90),
                                       ("unit", .str "seconds")])]])]])]) := by
  refine ⟨?_, ?_, rfl⟩
  · intro subs cfs q ru hty hq hru
    cases subs with
    | nil =>
      simp only [processChild, except_ok_bind, hty, hq]
      rfl
    | cons s0 ss0 =>
      simp only [processChild, except_ok_bind, hty, hq, hru]
      rfl
  · intro st bfs st' cs h hty hcs hne
    cases cs with
    | nil => exact absurd rfl hne
    | cons c0 cs0 =>
    simp only [processBlock, except_ok_bind, hty, hcs] at h
    rcases hdu : map_duration_unit (dget bfs "durationUnit") with e | du
    · rw [hdu] at h; simp at h
    · rw [hdu] at h
      simp only [except_ok_bind, List.isEmpty_cons, Bool.not_false, if_true] at h
      constructor
      · intro hPC
        rw [hPC] at h
        simp only [except_ok_bind, List.isEmpty_nil, Bool.not_true] at h
        simp at h
        exact h.symm
      · intro subs hPC hsne
        rw [hPC] at h
        cases subs with
        | nil => exact absurd rfl hsne
        | cons s0 ss0 =>
          simp only [except_ok_bind, List.isEmpty_cons, Bool.not_false, if_true] at h
          exact (Except.ok.inj h).symm

/-- C9 witness: instantiating the general parts on the concrete `c9block`
children and state. -/
theorem claim_c9_complex_assembly_witness :
    processChild c10subs c10child =
      .ok (setLastField c10subs "rest"
        (restPayloadOf [("type", .str "rest"), ("duration", .int 90)] 90 none)) ∧
    processBlock ⟨none, none, [], []⟩ c9block =
      .ok ⟨none, none,
        [.obj [("name", .str "Main Set"), ("repetitions", .int 1),
               ("sub_intervals", .arr
                 [.obj [("work", .obj [("name", .str "Work"), ("type", .str "distance"),
                                       ("duration_or_distance", .num 400),
                                       ("unit", .str "meters")]),
                        ("rest", .obj [("name", .str "Rest"), ("duration", .num 90),
                                       ("unit", .str "seconds")])]])]], []⟩ := by
  constructor
  · have h := claim_c9_complex_assembly.1 c10subs
      [("type", .str "rest"), ("duration", .int 90)] 90 none rfl rfl rfl
    simpa [c10child, c10subs] using h
  · have h := (claim_c9_complex_assembly.2.1 ⟨none, none, [], []⟩
      [("type", .str "interval"), ("name", .str "Main Set"),
       ("children", .arr
         [.obj [("type", .str "interval"), ("intervalType", .str "distance"),
                ("distance", .int 400)],
          .obj [("type", .str "rest"), ("duration", .int 90)]])]
      _ _ rfl rfl rfl (by simp)).2
      [.obj [("work", .obj [("name", .str "Work"), ("type", .str "distance"),
                            ("duration_or_distance", .num 400),
                            ("unit", .str "meters")]),
             ("rest", .obj [("name", .str "Rest"), ("duration", .num 90),
                            ("unit", .str "seconds")])]] rfl (by simp)
    exact rfl

/-- C10: the implicit default-unit asymmetry.  A rest child nested in a
complex interval whose `durationUnit` is absent or unmapped gets unit
`seconds`; a top-level rest block under the same conditions is appended to
`rest_periods` with unit `minutes`. -/
theorem claim_c10_default_unit_asymmetry :
    (∀ subs cfs q,
      pyLower (pyOrD (dget cfs "type") (.str "")) = .ok "rest" →
      _safe_positive_number (dget cfs "duration") = some q →
      map_duration_unit (dget cfs "durationUnit") = .ok none →
      subs ≠ [] →
      processChild subs (.obj cfs) =
        .ok (setLastField subs "rest"
          (.obj [("name", pyOrD (dget cfs "name") (.str "Rest")),
                 ("duration", .num q), ("unit", .str "seconds")]))) ∧
    (∀ st bfs q,
      pyLower (pyOrD (dget bfs "type") (.str "")) = .ok "rest" →
      _safe_positive_number (dget bfs "duration") = some q →
      map_duration_unit (dget bfs "durationUnit") = .ok none →
      processBlock st (.obj bfs) = .ok { st with rest_periods := st.rest_periods ++
        [.obj [("name", pyOrD (dget bfs "name") (.str "Rest")),
               ("duration", .num q), ("unit", .str "minutes")]] }) := by
  constructor
  · intro subs cfs q hty hq hru hsubs
    cases subs with
    | nil => exact absurd rfl hsubs
    | cons s0 ss0 =>
      simp only [processChild, except_ok_bind, hty, hq, hru]
      rfl
  · intro st bfs q hty hq hru
    simp only [processBlock, except_ok_bind, hty, hq, hru]
    rfl

/-! ### Success-extraction lemmas for the validators -/

theorem seq_ok {x : Except String Unit} {k : Unit → Except String Unit}
    (h : (x >>= k) = .ok ()) : x = .ok () ∧ k () = .ok () := by
  cases x with
  | error e => simp at h
  | ok u => cases u; exact ⟨rfl, by simpa using h⟩

theorem hasKey_dlookup {fs : List (String × JVal)} {k : String}
    (h : hasKey fs k = true) : ∃ v, dlookup fs k = some v := by
  simp only [hasKey, List.any_eq_true] at h
  have hs : (fs.find? (fun p => p.1 = k)).isSome := List.find?_isSome.2 (by simpa using h)
  rcases Option.isSome_iff_exists.1 hs with ⟨p, hp⟩
  exact ⟨p.2, by simp [dlookup, hp]⟩

theorem dlookup_hasKey {fs : List (String × JVal)} {k : String} {v : JVal}
    (h : dlookup fs k = some v) : hasKey fs k = true := by
  simp only [dlookup, Option.map_eq_some'] at h
  rcases h with ⟨p, hp, hv⟩
  have hm := List.mem_of_find?_eq_some hp
  have hpred := List.find?_some hp
  simp only [hasKey, List.any_eq_true]
  exact ⟨p, hm, hpred⟩

theorem validateRequiredSuffix_ok_mem {fs : List (String × JVal)} {pn suffix : String}
    {l : List String} (h : validateRequiredSuffix (.obj fs) pn suffix l = .ok ()) :
    ∀ f ∈ l, hasKey fs f = true := by
  induction l with
  | nil => simp
  | cons a l ih =>
    intro f hf
    by_cases ha : hasKey fs a = true
    · rw [validateRequiredSuffix] at h
      simp only [pyContains, except_ok_bind, ha] at h
      simp only [Bool.not_true, Bool.false_eq_true, if_false] at h
      rcases List.mem_cons.1 hf with rfl | hf'
      · exact ha
      · exact ih h f hf'
    · rw [validateRequiredSuffix] at h
      simp [pyContains, Bool.eq_false_iff.2 ha] at h

theorem collectPresent_obj (fs : List (String × JVal)) (l : List String) :
    collectPresent (.obj fs) l = .ok (l.filter (fun f => hasKey fs f)) := by
  induction l with
  | nil => rfl
  | cons a l ih =>
    by_cases ha : hasKey fs a = true <;>
      simp [collectPresent, pyContains, ih, List.filter_cons, ha]

theorem validateOptField_ok {fs : List (String × JVal)} {k : String}
    {f : JVal → Except String Unit} (h : validateOptField (.obj fs) k f = .ok ()) :
    ∀ v, dlookup fs k = some v → f v = .ok () := by
  intro v hv
  simp only [validateOptField, pyContains, pyGetItem, except_ok_bind,
    dlookup_hasKey hv, hv, if_true] at h
  exact h

theorem validateOptField_ok_of {fs : List (String × JVal)} {k : String}
    {f : JVal → Except String Unit} (h : ∀ v, dlookup fs k = some v → f v = .ok ()) :
    validateOptField (.obj fs) k f = .ok () := by
  by_cases hk : hasKey fs k
  · rcases hasKey_dlookup hk with ⟨v, hv⟩
    simp [validateOptField, pyContains, pyGetItem, hk, hv, h v hv]
  · simp [validateOptField, pyContains, hk]

/-- Success of the model-level top validator, decomposed per component. -/
theorem tvd_ok_parts {fs : List (String × JVal)}
    (h : _validate_training_data (.obj fs) = .ok ()) :
    (∀ w, dlookup fs "warmup" = some w → _validate_phase w "warmup" = .ok ()) ∧
    (∀ xs, dlookup fs "intervals" = some (.arr xs) →
      ∀ iv ∈ xs, ∃ n, _validate_interval iv n = .ok ()) ∧
    (∀ xs, dlookup fs "rest_periods" = some (.arr xs) →
      ∀ r ∈ xs, ∃ n, _validate_phase r n = .ok ()) ∧
    (∀ c, dlookup fs "cooldown" = some c → _validate_phase c "cooldown" = .ok ()) := by
  simp only [_validate_training_data] at h
  have h1 := seq_ok h
  have h2 := seq_ok h1.2
  have h3 := seq_ok h2.2
  refine ⟨fun w hw => validateOptField_ok h1.1 w hw, ?_, ?_,
    fun c hc => validateOptField_ok h3.2 c hc⟩
  · intro xs hxs iv hiv
    have hv := validateOptField_ok h2.1 _ hxs
    rcases validateListIdx_ok_mem _ _ _ hv iv hiv with ⟨j, hj⟩
    exact ⟨_, hj⟩
  · intro xs hxs r hr
    have hv := validateOptField_ok h3.1 _ hxs
    rcases validateListIdx_ok_mem _ _ _ hv r hr with ⟨j, hj⟩
    exact ⟨_, hj⟩

theorem filter_keys_nil {ifs : List (String × JVal)}
    (h : (["type", "duration_or_distance", "unit"].filter (fun f => hasKey ifs f)) = []) :
    hasKey ifs "type" = false ∧ hasKey ifs "duration_or_distance" = false ∧
    hasKey ifs "unit" = false := by
  simp only [List.filter_eq_nil_iff] at h
  exact ⟨Bool.eq_false_iff.2 (fun hc => by simpa using h "type" (by simp) hc),
    Bool.eq_false_iff.2 (fun hc => by simpa using h "duration_or_distance" (by simp) hc),
    Bool.eq_false_iff.2 (fun hc => by simpa using h "unit" (by simp) hc)⟩

theorem interval_ok_xor {ifs : List (String × JVal)} {n : String}
    (h : _validate_interval (.obj ifs) n = .ok ()) :
    xor (hasKey ifs "sub_intervals")
      (hasKey ifs "type" && hasKey ifs "duration_or_distance" && hasKey ifs "unit")
      = true := by
  by_cases hn : hasKey ifs "name" = true
  case neg =>
    rw [_validate_interval] at h
    simp [pyContains, Bool.eq_false_iff.2 hn] at h
  case pos =>
  by_cases hs : hasKey ifs "sub_intervals" = true
  case pos =>
    rcases hasKey_dlookup hs with ⟨v, hv⟩
    rw [_validate_interval] at h
    simp only [pyContains, pyGetItem, except_ok_bind, hn, hs, hv, Bool.not_true,
      Bool.false_eq_true, if_false, if_true] at h
    cases v with
    | arr xs =>
      cases xs with
      | nil => simp at h
      | cons x0 xs0 =>
        simp only [List.length_cons] at h
        rw [if_neg (by simp)] at h
        by_cases hr : hasKey ifs "repetitions" = true
        case neg => simp [Bool.eq_false_iff.2 hr] at h
        case pos =>
        rcases hasKey_dlookup hr with ⟨rv, hrv⟩
        simp only [hr, hrv, Bool.not_true, Bool.false_eq_true, if_false, except_ok_bind] at h
        by_cases hri : ((!isPyInt rv) = true ∨ toZ rv ≤ 0)
        · rw [if_pos hri] at h; simp at h
        · rw [if_neg hri] at h
          rw [collectPresent_obj] at h
          simp only [except_ok_bind] at h
          by_cases hff : (["type", "duration_or_distance", "unit"].filter
              (fun f => hasKey ifs f)) = []
          · rcases filter_keys_nil hff with ⟨h1, h2, h3⟩
            simp [hs, h1, h2, h3]
          · rw [if_pos (by simpa using hff)] at h; simp at h
    | null => simp at h
    | bool b => simp at h
    | int m => simp at h
    | num q => simp at h
    | str s => simp at h
    | obj o => simp at h
  case neg =>
    rw [_validate_interval] at h
    simp only [pyContains, except_pure_eq_ok, except_ok_bind, hn, Bool.not_true,
      Bool.false_eq_true, if_false, Bool.eq_false_iff.2 hs, if_true] at h
    have hreq := (seq_ok h).1
    have hmem := validateRequiredSuffix_ok_mem hreq
    simp [Bool.eq_false_iff.2 hs, hmem "type" (by simp),
      hmem "duration_or_distance" (by simp), hmem "unit" (by simp)]
theorem tdv_interval_nil_xor {ifs : List (String × JVal)} {n : String}
    (h : TDV.validateInterval (.obj ifs) n = []) :
    xor (hasKey ifs "sub_intervals")
      (hasKey ifs "type" && hasKey ifs "duration_or_distance" && hasKey ifs "unit")
      = true := by
  by_cases hs : hasKey ifs "sub_intervals" = true
  · rw [TDV.validateInterval] at h
    simp only [hs, if_true, List.append_eq_nil] at h
    obtain ⟨-, ⟨⟨-, -⟩, hffc⟩, -⟩ := h
    by_cases hff : (["type", "duration_or_distance", "unit"].filter
        (fun f => hasKey ifs f)) = []
    · rcases filter_keys_nil hff with ⟨h1, h2, h3⟩
      simp [hs, h1, h2, h3]
    · rw [if_pos (by simpa using hff)] at hffc
      simp at hffc
  · rw [TDV.validateInterval] at h
    simp only [Bool.eq_false_iff.2 hs, Bool.false_eq_true, if_false,
      List.append_eq_nil, List.filterMap_eq_nil_iff] at h
    obtain ⟨-, ⟨⟨hreq, -⟩, -⟩, -⟩ := h
    have ht : hasKey ifs "type" = true := by
      by_contra hc
      simpa [Bool.eq_false_iff.2 hc] using hreq "type" (by simp)
    have hd : hasKey ifs "duration_or_distance" = true := by
      by_contra hc
      simpa [Bool.eq_false_iff.2 hc] using hreq "duration_or_distance" (by simp)
    have hu : hasKey ifs "unit" = true := by
      by_contra hc
      simpa [Bool.eq_false_iff.2 hc] using hreq "unit" (by simp)
    simp [Bool.eq_false_iff.2 hs, ht, hd, hu]
theorem ite_ok_isEmpty {E : List String} {e : String}
    (h : (if E.isEmpty = true then (Except.ok () : Except String Unit)
          else Except.error e) = .ok ()) : E = [] := by
  split at h
  · exact List.isEmpty_iff.1 (by assumption)
  · simp at h

theorem mem_enumFrom_of_mem {α : Type} {x : α} :
    ∀ {xs : List α} (k : ℕ), x ∈ xs → ∃ i, (i, x) ∈ xs.enumFrom k := by
  intro xs
  induction xs with
  | nil => intro k h; simp at h
  | cons y ys ih =>
    intro k h
    rcases List.mem_cons.1 h with rfl | h'
    · exact ⟨k, by simp⟩
    · rcases ih (k + 1) h' with ⟨i, hi⟩
      exact ⟨i, by simp [hi]⟩

/-- Success of the serializer-level top validator gives empty error lists
for every interval element. -/
theorem tdv_ok_intervals {fs : List (String × JVal)}
    (h : TDV.validate_training_data (.obj fs) = .ok ()) :
    ∀ xs, dlookup fs "intervals" = some (.arr xs) →
      ∀ iv ∈ xs, ∃ n, TDV.validateInterval iv n = [] := by
  intro xs hxs iv hiv
  rw [TDV.validate_training_data] at h
  simp only [hxs] at h
  have hE := ite_ok_isEmpty h
  simp only [List.append_eq_nil, List.flatten_eq_nil_iff] at hE
  obtain ⟨⟨⟨-, hI⟩, -⟩, -⟩ := hE
  rcases mem_enumFrom_of_mem 0 hiv with ⟨i, hi⟩
  have hmap := hI _ (List.mem_map_of_mem _ (by simpa [List.enum] using hi))
  rw [List.map_eq_nil_iff] at hmap
  exact ⟨_, hmap⟩

/-- C10 witness: the same rest dict (`duration=90`, no `durationUnit`)
nested under a complex interval produces unit `seconds`, as a top-level
block unit `minutes`. -/
theorem claim_c10_default_unit_asymmetry_witness :
    processChild c10subs c10child =
      .ok (setLastField c10subs "rest"
        (.obj [("name", .str "Rest"), ("duration", .num 90), ("unit", .str "seconds")])) ∧
    processBlock ⟨none, none, [], []⟩ c10child =
      .ok ⟨none, none, [],
        [.obj [("name", .str "Rest"), ("duration", .num 90), ("unit", .str "minutes")]]⟩ := by
  constructor
  · have h := claim_c10_default_unit_asymmetry.1 c10subs
      [("type", .str "rest"), ("duration", .int 90)] 90 rfl rfl rfl (by simp [c10subs])
    simpa [c10child] using h
  · have h := claim_c10_default_unit_asymmetry.2 ⟨none, none, [], []⟩
      [("type", .str "rest"), ("duration", .int 90)] 90 rfl rfl rfl
    simpa [c10child] using h

theorem tdv_result_cases (d : JVal) :
    TDV.validate_training_data d = .ok () ∨
    ∃ msg, TDV.validate_training_data d = .error msg := by
  rcases hres : TDV.validate_training_data d with e | u
  · exact Or.inr ⟨e, rfl⟩
  · cases u; exact Or.inl rfl

theorem tdv_interval_norep_ne {ifs : List (String × JVal)} {n : String}
    (hnosub : hasKey ifs "sub_intervals" = false)
    (hnorep : hasKey ifs "repetitions" = false) :
    TDV.validateInterval (.obj ifs) n ≠ [] := by
  intro h
  rw [TDV.validateInterval] at h
  simp only [hnosub, Bool.false_eq_true, if_false, List.append_eq_nil,
    List.filterMap_eq_nil_iff] at h
  obtain ⟨-, ⟨⟨hreq, -⟩, -⟩, -⟩ := h
  have := hreq "repetitions" (by simp)
  simp [hnorep] at this

theorem qpos_false_of_nonpos {q : ℚ} (h : q ≤ 0) : qpos q = false := by
  simp only [qpos, decide_eq_false_iff_not, not_lt]
  exact Rat.num_nonpos.2 h

theorem tdv_work_bad_ne {wfs : List (String × JVal)} {v : JVal}
    (hd : dlookup wfs "duration_or_distance" = some v)
    (hnum : isPyNumber v = true) (hv : toQ v ≤ 0) :
    TDV.validateWorkPhase (.obj wfs) ≠ [] := by
  intro h
  rw [TDV.validateWorkPhase] at h
  simp only [List.append_eq_nil] at h
  obtain ⟨-, hdod⟩ := h
  rw [dlookup_hasKey hd] at hdod
  simp [hd, hnum, qpos_false_of_nonpos hv] at hdod

theorem tdv_rest_bad_ne {rfs : List (String × JVal)} {v : JVal} {n : String}
    (hd : dlookup rfs "duration" = some v)
    (hnum : isPyNumber v = true) (hv : toQ v ≤ 0) :
    TDV.validateRest (.obj rfs) n ≠ [] := by
  intro h
  rw [TDV.validateRest] at h
  simp only [List.append_eq_nil] at h
  obtain ⟨⟨-, hdod⟩, -⟩ := h
  rw [dlookup_hasKey hd] at hdod
  simp [hd, hnum, qpos_false_of_nonpos hv] at hdod

theorem tdv_sub_bad_ne {sfs : List (String × JVal)} {n : String} {v : JVal}
    (hnum : isPyNumber v = true) (hv : toQ v ≤ 0)
    (hcase : (∃ wfs, dlookup sfs "work" = some (.obj wfs) ∧
        dlookup wfs "duration_or_distance" = some v) ∨
      (∃ rfs, dlookup sfs "rest" = some (.obj rfs) ∧
        dlookup rfs "duration" = some v)) :
    TDV.validateSubInterval (.obj sfs) n ≠ [] := by
  intro h
  rw [TDV.validateSubInterval] at h
  simp only [List.append_eq_nil] at h
  obtain ⟨hw, hr⟩ := h
  rcases hcase with ⟨wfs, hwl, hd⟩ | ⟨rfs, hrl, hd⟩
  · rw [hwl] at hw
    rw [List.map_eq_nil_iff] at hw
    exact tdv_work_bad_ne hd hnum hv hw
  · rw [hrl] at hr
    rw [List.map_eq_nil_iff] at hr
    exact tdv_rest_bad_ne hd hnum hv hr

theorem tdv_interval_badsub_ne {ifs sfs : List (String × JVal)} {n : String}
    {ss : List JVal} {v : JVal}
    (hsub : dlookup ifs "sub_intervals" = some (.arr ss))
    (hsmem : JVal.obj sfs ∈ ss)
    (hnum : isPyNumber v = true) (hv : toQ v ≤ 0)
    (hcase : (∃ wfs, dlookup sfs "work" = some (.obj wfs) ∧
        dlookup wfs "duration_or_distance" = some v) ∨
      (∃ rfs, dlookup sfs "rest" = some (.obj rfs) ∧
        dlookup rfs "duration" = some v)) :
    TDV.validateInterval (.obj ifs) n ≠ [] := by
  intro h
  rw [TDV.validateInterval] at h
  simp only [dlookup_hasKey hsub, if_true, hsub, List.append_eq_nil,
    List.flatten_eq_nil_iff] at h
  obtain ⟨-, ⟨⟨-, -⟩, -⟩, hsubs⟩ := h
  rcases mem_enumFrom_of_mem 0 hsmem with ⟨i, hi⟩
  have hmap := hsubs _ (List.mem_map_of_mem _ (by simpa [List.enum] using hi))
  rw [List.map_eq_nil_iff] at hmap
  exact tdv_sub_bad_ne hnum hv hcase hmap
theorem phase_ok_unit {pfs : List (String × JVal)} {n : String} {u : JVal}
    (h : _validate_phase (.obj pfs) n = .ok ())
    (hu : dlookup pfs "unit" = some u) :
    jvalInStrs u (TIME_UNITS ++ DISTANCE_UNITS) = true := by
  have huk := dlookup_hasKey hu
  by_cases hn : hasKey pfs "name" = true
  case neg =>
    rw [_validate_phase] at h
    simp [pyContains, Bool.eq_false_iff.2 hn] at h
  case pos =>
  by_cases hd : hasKey pfs "duration" = true
  case neg =>
    rw [_validate_phase] at h
    simp [pyContains, hn, huk, Bool.eq_false_iff.2 hd] at h
  case pos =>
  rw [_validate_phase] at h
  simp only [pyContains, pyGet, except_ok_bind, hn, hd, huk, hu, Bool.not_true,
    Bool.false_eq_true, if_false, and_false, false_and, if_true, Option.getD_some] at h
  by_cases hju : jvalInStrs u (TIME_UNITS ++ DISTANCE_UNITS) = true
  · exact hju
  · simp [Bool.eq_false_iff.2 hju] at h

theorem interval_ok_unit {ifs : List (String × JVal)} {n : String} {u : JVal}
    (h : _validate_interval (.obj ifs) n = .ok ())
    (hnosub : hasKey ifs "sub_intervals" = false)
    (hu : dlookup ifs "unit" = some u) :
    jvalInStrs u (TIME_UNITS ++ DISTANCE_UNITS) = true := by
  by_cases hn : hasKey ifs "name" = true
  case neg =>
    rw [_validate_interval] at h
    simp [pyContains, Bool.eq_false_iff.2 hn] at h
  case pos =>
  rw [_validate_interval] at h
  simp only [pyContains, pyGet, except_pure_eq_ok, except_ok_bind, hn, hnosub,
    Bool.not_true, Bool.false_eq_true, if_false, if_true, hu, Option.getD_some] at h
  have h2 := (seq_ok h).2
  by_cases hju : jvalInStrs u (TIME_UNITS ++ DISTANCE_UNITS) = true
  · exact hju
  · simp [Bool.eq_false_iff.2 hju] at h2

/-- C6 (amended): in the serializer-level mode, a simple interval (no
`sub_intervals`) lacking `repetitions` always fails validation.  (The
model-level validator, per the C6 counterexample, never checks
`repetitions` on simple intervals.) -/
theorem claim_c6_repetitions_amended (fs ifs : List (String × JVal)) (xs : List JVal)
    (hxs : dlookup fs "intervals" = some (.arr xs))
    (hmem : JVal.obj ifs ∈ xs)
    (hnosub : hasKey ifs "sub_intervals" = false)
    (hnorep : hasKey ifs "repetitions" = false) :
    ∃ msg, TDV.validate_training_data (.obj fs) = .error msg := by
  rcases tdv_result_cases (.obj fs) with hok | he
  · rcases tdv_ok_intervals hok xs hxs _ hmem with ⟨n, hn⟩
    exact absurd hn (tdv_interval_norep_ne hnosub hnorep)
  · exact he

/-- C6 witness: the serializer-level validator rejects `c6data`. -/
theorem claim_c6_repetitions_amended_witness :
    ∃ msg, TDV.validate_training_data c6data = .error msg :=
  claim_c6_repetitions_amended [("intervals", .arr [.obj c6interval])] c6interval
    [.obj c6interval] rfl (by simp) rfl rfl

/-- C7 (amended): in the serializer-level mode, a sub-interval whose work
phase has a numeric non-positive `duration_or_distance`, or whose rest
phase has a numeric non-positive `duration`, always fails validation.
(The model-level validator, per the C7 counterexample, does not check
positivity on sub-interval phases.) -/
theorem claim_c7_phase_positivity_amended (fs ifs sfs : List (String × JVal))
    (xs ss : List JVal) (v : JVal)
    (hxs : dlookup fs "intervals" = some (.arr xs))
    (hmem : JVal.obj ifs ∈ xs)
    (hsub : dlookup ifs "sub_intervals" = some (.arr ss))
    (hsmem : JVal.obj sfs ∈ ss)
    (hnum : isPyNumber v = true)
    (hv : toQ v ≤ 0)
    (hcase : (∃ wfs, dlookup sfs "work" = some (.obj wfs) ∧
        dlookup wfs "duration_or_distance" = some v) ∨
      (∃ rfs, dlookup sfs "rest" = some (.obj rfs) ∧
        dlookup rfs "duration" = some v)) :
    ∃ msg, TDV.validate_training_data (.obj fs) = .error msg := by
  rcases tdv_result_cases (.obj fs) with hok | he
  · rcases tdv_ok_intervals hok xs hxs _ hmem with ⟨n, hn⟩
    exact absurd hn (tdv_interval_badsub_ne hsub hsmem hnum hv hcase)
  · exact he

/-- C7 witness: the serializer-level validator rejects `c7data`, whose
work phase has `duration_or_distance = -5`. -/
theorem claim_c7_phase_positivity_amended_witness :
    ∃ msg, TDV.validate_training_data c7data = .error msg :=
  claim_c7_phase_positivity_amended
    [("intervals", .arr [.obj [("name", .str "X"), ("repetitions", .int 1),
        ("sub_intervals", .arr [.obj [("work", .obj c7work)]])]])]
    [("name", .str "X"), ("repetitions", .int 1),
     ("sub_intervals", .arr [.obj [("work", .obj c7work)]])]
    [("work", .obj c7work)]
    [.obj [("name", .str "X"), ("repetitions", .int 1),
           ("sub_intervals", .arr [.obj [("work", .obj c7work)]])]]
    [.obj [("work", .obj c7work)]]
    (.int (-5)) rfl (by simp) rfl (by simp) rfl (by norm_num [toQ])
    (Or.inl ⟨c7work, rfl, rfl⟩)

/-- C5 (amended): the model-level validator constrains `unit` on top-level
phases (warmup, cooldown, rest_periods entries) and on simple intervals to
`TIME_UNITS ++ DISTANCE_UNITS`, which is the spec's five units plus
`miles`; the serializer-level validator does not constrain simple-interval
units at all (it accepts `furlongs`). -/
theorem claim_c5_units_amended :
    (∀ fs : List (String × JVal), _validate_training_data (.obj fs) = .ok () →
      (∀ pfs u, dlookup fs "warmup" = some (.obj pfs) → dlookup pfs "unit" = some u →
        jvalInStrs u (TIME_UNITS ++ DISTANCE_UNITS) = true) ∧
      (∀ pfs u, dlookup fs "cooldown" = some (.obj pfs) → dlookup pfs "unit" = some u →
        jvalInStrs u (TIME_UNITS ++ DISTANCE_UNITS) = true) ∧
      (∀ xs pfs u, dlookup fs "rest_periods" = some (.arr xs) → JVal.obj pfs ∈ xs →
        dlookup pfs "unit" = some u →
        jvalInStrs u (TIME_UNITS ++ DISTANCE_UNITS) = true) ∧
      (∀ xs ifs u, dlookup fs "intervals" = some (.arr xs) → JVal.obj ifs ∈ xs →
        hasKey ifs "sub_intervals" = false → dlookup ifs "unit" = some u →
        jvalInStrs u (TIME_UNITS ++ DISTANCE_UNITS) = true)) ∧
    TIME_UNITS ++ DISTANCE_UNITS
      = ["seconds", "minutes", "hours", "meters", "kilometers", "miles"] ∧
    TDV.validate_training_data c5furlongsData = .ok () := by
  refine ⟨?_, rfl, rfl⟩
  intro fs h
  have parts := tvd_ok_parts h
  refine ⟨?_, ?_, ?_, ?_⟩
  · intro pfs u hw hu
    exact phase_ok_unit (parts.1 _ hw) hu
  · intro pfs u hc hu
    exact phase_ok_unit (parts.2.2.2 _ hc) hu
  · intro xs pfs u hxs hmem hu
    rcases parts.2.2.1 xs hxs _ hmem with ⟨n, hn⟩
    exact phase_ok_unit hn hu
  · intro xs ifs u hxs hmem hnosub hu
    rcases parts.2.1 xs hxs _ hmem with ⟨n, hn⟩
    exact interval_ok_unit hn hnosub hu

/-- C5 witness: `miles`, which is outside the spec's enumeration, is among
the units the model-level validator accepts on the `c5data` interval. -/
theorem claim_c5_units_amended_witness :
    jvalInStrs (.str "miles") (TIME_UNITS ++ DISTANCE_UNITS) = true :=
  (claim_c5_units_amended.1 [("intervals", .arr [.obj c5interval])] rfl).2.2.2
    [.obj c5interval] c5interval (.str "miles") rfl (by simp) rfl rfl

/-- C3: in both validation modes, success of workout validation forces
every interval object in the `intervals` array to satisfy the exclusivity
invariant: it has `sub_intervals` XOR it has all of `type`,
`duration_or_distance` and `unit`. -/
theorem claim_c3_mutual_exclusivity (fs ifs : List (String × JVal)) (xs : List JVal)
    (hxs : dlookup fs "intervals" = some (.arr xs))
    (hmem : JVal.obj ifs ∈ xs)
    (hok : _validate_training_data (.obj fs) = .ok () ∨
           TDV.validate_training_data (.obj fs) = .ok ()) :
    xor (hasKey ifs "sub_intervals")
      (hasKey ifs "type" && hasKey ifs "duration_or_distance" && hasKey ifs "unit")
      = true := by
  rcases hok with hok | hok
  · rcases (tvd_ok_parts hok).2.1 xs hxs _ hmem with ⟨n, hn⟩
    exact interval_ok_xor hn
  · rcases tdv_ok_intervals hok xs hxs _ hmem with ⟨n, hn⟩
    exact tdv_interval_nil_xor hn

/-- C3 witness: the model-level validator accepts `c3data`, whose complex
interval indeed has `sub_intervals` and none of the three parent fields. -/
theorem claim_c3_mutual_exclusivity_witness :
    xor (hasKey c3interval "sub_intervals")
      (hasKey c3interval "type" && hasKey c3interval "duration_or_distance" &&
       hasKey c3interval "unit") = true :=
  claim_c3_mutual_exclusivity [("intervals", .arr [.obj c3interval])] c3interval
    [.obj c3interval] rfl (by simp) (Or.inl rfl)

end Promethia
namespace Promethia
theorem jvalInStrs_of_mem {s : String} {l : List String} (h : s ∈ l) :
    jvalInStrs (.str s) l = true := by
  simp only [jvalInStrs, List.any_eq_true]
  exact ⟨s, h, by simp⟩

theorem validateOptField_absent {fs : List (String × JVal)} {k : String}
    {f : JVal → Except String Unit} (hk : hasKey fs k = false) :
    validateOptField (.obj fs) k f = .ok () := by
  simp [validateOptField, pyContains, hk]

theorem lookup_snd_mem {m : List (String × String)} {k v : String}
    (h : List.lookup k m = some v) : v ∈ m.map Prod.snd := by
  induction m with
  | nil => simp [List.lookup] at h
  | cons p ps ih =>
    rw [List.lookup_cons] at h
    split at h
    · simp only [Option.some.injEq] at h
      simp [← h]
    · simp only [List.map_cons, List.mem_cons]
      exact Or.inr (ih h)

theorem map_duration_unit_cases (o : Option JVal) :
    map_duration_unit o = .ok none ∨
    (∃ t, o = some (.str t) ∧
      map_duration_unit o = .ok (List.lookup (strLower (pyStrip t)) _DURATION_UNIT_MAP)) ∨
    (∃ e, map_duration_unit o = .error e) := by
  rcases o with - | v
  · exact Or.inl (by simp [map_duration_unit, truthyO])
  · cases v
    case str t =>
      by_cases ht : t = ""
      · subst ht; exact Or.inl (by simp [map_duration_unit, truthyO, truthy])
      · exact Or.inr (Or.inl ⟨t, rfl, by simp [map_duration_unit, truthyO, truthy, ht]⟩)
    case null => exact Or.inl (by simp [map_duration_unit, truthyO, truthy])
    case bool b =>
      cases b
      · exact Or.inl (by simp [map_duration_unit, truthyO, truthy])
      · exact Or.inr (Or.inr ⟨"AttributeError: strip", by simp [map_duration_unit, truthyO, truthy]⟩)
    case int n =>
      by_cases hn : n = 0
      · subst hn; exact Or.inl (by simp [map_duration_unit, truthyO, truthy])
      · exact Or.inr (Or.inr ⟨"AttributeError: strip", by simp [map_duration_unit, truthyO, truthy, hn]⟩)
    case num q =>
      by_cases hq : q = 0
      · subst hq; exact Or.inl (by simp [map_duration_unit, truthyO, truthy])
      · exact Or.inr (Or.inr ⟨"AttributeError: strip", by simp [map_duration_unit, truthyO, truthy, hq]⟩)
    case arr xs =>
      by_cases hx : xs.isEmpty
      · exact Or.inl (by simp [map_duration_unit, truthyO, truthy, hx])
      · exact Or.inr (Or.inr ⟨"AttributeError: strip", by simp [map_duration_unit, truthyO, truthy, hx]⟩)
    case obj gs =>
      by_cases hx : gs.isEmpty
      · exact Or.inl (by simp [map_duration_unit, truthyO, truthy, hx])
      · exact Or.inr (Or.inr ⟨"AttributeError: strip", by simp [map_duration_unit, truthyO, truthy, hx]⟩)

theorem map_distance_unit_cases (o : Option JVal) :
    map_distance_unit o = .ok none ∨
    (∃ t, o = some (.str t) ∧
      map_distance_unit o = .ok (List.lookup (strLower (pyStrip t)) _DISTANCE_UNIT_MAP)) ∨
    (∃ e, map_distance_unit o = .error e) := by
  rcases o with - | v
  · exact Or.inl (by simp [map_distance_unit, truthyO])
  · cases v
    case str t =>
      by_cases ht : t = ""
      · subst ht; exact Or.inl (by simp [map_distance_unit, truthyO, truthy])
      · exact Or.inr (Or.inl ⟨t, rfl, by simp [map_distance_unit, truthyO, truthy, ht]⟩)
    case null => exact Or.inl (by simp [map_distance_unit, truthyO, truthy])
    case bool b =>
      cases b
      · exact Or.inl (by simp [map_distance_unit, truthyO, truthy])
      · exact Or.inr (Or.inr ⟨"AttributeError: strip", by simp [map_distance_unit, truthyO, truthy]⟩)
    case int n =>
      by_cases hn : n = 0
      · subst hn; exact Or.inl (by simp [map_distance_unit, truthyO, truthy])
      · exact Or.inr (Or.inr ⟨"AttributeError: strip", by simp [map_distance_unit, truthyO, truthy, hn]⟩)
    case num q =>
      by_cases hq : q = 0
      · subst hq; exact Or.inl (by simp [map_distance_unit, truthyO, truthy])
      · exact Or.inr (Or.inr ⟨"AttributeError: strip", by simp [map_distance_unit, truthyO, truthy, hq]⟩)
    case arr xs =>
      by_cases hx : xs.isEmpty
      · exact Or.inl (by simp [map_distance_unit, truthyO, truthy, hx])
      · exact Or.inr (Or.inr ⟨"AttributeError: strip", by simp [map_distance_unit, truthyO, truthy, hx]⟩)
    case obj gs =>
      by_cases hx : gs.isEmpty
      · exact Or.inl (by simp [map_distance_unit, truthyO, truthy, hx])
      · exact Or.inr (Or.inr ⟨"AttributeError: strip", by simp [map_distance_unit, truthyO, truthy, hx]⟩)

theorem map_duration_unit_mem {o : Option JVal} {s : String}
    (h : map_duration_unit o = .ok (some s)) : s ∈ TIME_UNITS := by
  have hall : ∀ v ∈ _DURATION_UNIT_MAP.map Prod.snd, v ∈ TIME_UNITS := by decide
  rcases map_duration_unit_cases o with hc | ⟨t, -, hc⟩ | ⟨e, hc⟩
  · rw [hc] at h; simp at h
  · rw [hc] at h
    simp only [Except.ok.injEq] at h
    exact hall _ (lookup_snd_mem h)
  · rw [hc] at h; simp at h

theorem map_distance_unit_mem {o : Option JVal} {s : String}
    (h : map_distance_unit o = .ok (some s)) : s ∈ DISTANCE_UNITS := by
  have hall : ∀ v ∈ _DISTANCE_UNIT_MAP.map Prod.snd, v ∈ DISTANCE_UNITS := by decide
  rcases map_distance_unit_cases o with hc | ⟨t, -, hc⟩ | ⟨e, hc⟩
  · rw [hc] at h; simp at h
  · rw [hc] at h
    simp only [Except.ok.injEq] at h
    exact hall _ (lookup_snd_mem h)
  · rw [hc] at h; simp at h
end Promethia
namespace Promethia
theorem ensure_positive_int_pos (v : Option JVal) (d : ℤ) (hd : 0 < d) :
    0 < _ensure_positive_int v d := by
  rcases v with - | x
  · simpa [_ensure_positive_int] using hd
  · rcases hpi : pyIntOf x with - | m
    · simpa [_ensure_positive_int, hpi] using hd
    · by_cases hm : 0 < m <;> simp [_ensure_positive_int, hpi, hm, hd]

theorem phasePayloadGood {nm : JVal} {q : ℚ} {u : String}
    (hu : u ∈ TIME_UNITS ++ DISTANCE_UNITS) :
    phaseGood (.obj [("name", nm), ("duration", .num q), ("unit", .str u)]) := by
  intro n
  rw [_validate_phase]
  simp [pyContains, hasKey, pyGet, dlookup, List.find?, validateOptField,
    jvalInStrs_of_mem hu]

theorem restPayloadGood (nm : JVal) (q : ℚ) (u : String) :
    restGood (.obj [("name", nm), ("duration", .num q), ("unit", .str u)]) := by
  intro n
  rw [_validate_work_rest_phase]
  simp [validateRequired, validateRequiredSuffix, pyContains, hasKey,
    dlookup, List.find?, validateOptField]

theorem workPayloadGood {nm τ : JVal} {q : ℚ} {u : String} {extra : List (String × JVal)}
    (hut : jvalEqStr τ "time" = true → u ∈ TIME_UNITS)
    (hud : jvalEqStr τ "distance" = true → u ∈ DISTANCE_UNITS)
    (hextra : extra = [] ∨
      (∃ iv, extra = [("intensity", iv)] ∧ isPyNumber iv = true ∧
        qltz (toQ iv) = false ∧ qgtI 150 (toQ iv) = false) ∨
      (∃ iv z, extra = [("intensity", iv), ("zone_type", z)] ∧ isPyNumber iv = true ∧
        qltz (toQ iv) = false ∧ qgtI 150 (toQ iv) = false ∧
        jvalInStrs z ZONE_TYPES = true)) :
    workGood (.obj ([("name", nm), ("type", τ), ("duration_or_distance", .num q),
      ("unit", .str u)] ++ extra)) := by
  have h1 : ¬ (jvalEqStr τ "time" = true ∧ jvalInStrs (.str u) TIME_UNITS = false) := by
    rintro ⟨hjt, hju⟩
    rw [jvalInStrs_of_mem (hut hjt)] at hju
    simp at hju
  have h2 : ¬ (jvalEqStr τ "distance" = true ∧
      jvalInStrs (.str u) DISTANCE_UNITS = false) := by
    rintro ⟨hjt, hju⟩
    rw [jvalInStrs_of_mem (hud hjt)] at hju
    simp at hju
  intro n
  rcases hextra with rfl | ⟨iv, rfl, hp1, hp2, hp3⟩ | ⟨iv, z, rfl, hp1, hp2, hp3, hz⟩
  · rw [_validate_work_rest_phase]
    simp [validateRequired, validateRequiredSuffix, pyContains, hasKey, dlookup,
      List.find?, pyGet, validateOptField, pyGetItem, h1, h2]
  · rw [_validate_work_rest_phase]
    simp [validateRequired, validateRequiredSuffix, pyContains, hasKey, dlookup,
      List.find?, pyGet, validateOptField, pyGetItem, h1, h2,
      _validate_intensity, hp1, hp2, hp3]
  · rw [_validate_work_rest_phase]
    simp [validateRequired, validateRequiredSuffix, pyContains, hasKey, dlookup,
      List.find?, pyGet, validateOptField, pyGetItem, h1, h2,
      _validate_intensity, _validate_zone_type, hp1, hp2, hp3, hz]
end Promethia
namespace Promethia
theorem subEntryGood {s : JVal}
    (hs : ∃ w, workGood w ∧ (s = .obj [("work", w)] ∨
      ∃ r, restGood r ∧ s = .obj [("work", w), ("rest", r)])) :
    ∀ n, _validate_sub_interval s n = .ok () := by
  intro n
  rcases hs with ⟨w, hw, rfl | ⟨r, hr, rfl⟩⟩
  · rw [_validate_sub_interval]
    simp [validateOptField, pyContains, pyGetItem, hasKey, dlookup, List.find?,
      hw (n ++ ".work")]
  · rw [_validate_sub_interval]
    simp [validateOptField, pyContains, pyGetItem, hasKey, dlookup, List.find?,
      hw (n ++ ".work"), hr (n ++ ".rest")]

theorem complexIntervalGood {nm : JVal} {r : ℤ} {subs : List JVal}
    (hr : 0 < r) (hne : subs ≠ []) (hsubs : SubsGood subs) :
    intervalGood (.obj [("name", nm), ("repetitions", .int r),
      ("sub_intervals", .arr subs)]) := by
  intro n
  rw [_validate_interval]
  have hlen : ¬ subs.length = 0 := by simpa [List.length_eq_zero] using hne
  have hlist : validateListIdx (fun i s => _validate_sub_interval s
      (n ++ ".sub_intervals[" ++ toString i ++ "]")) 0 subs = .ok () := by
    refine validateListIdx_ok_of _ _ _ (fun j x hx => ?_)
    exact subEntryGood (hsubs x hx) _
  simp [pyContains, pyGetItem, hasKey, dlookup, List.find?, collectPresent_obj,
    validateOptField, hlen, hlist, isPyInt, toZ, hr]

theorem simpleIntervalGood {nm τ : JVal} {q : ℚ} {u : String} {r : ℤ}
    (humem : u ∈ TIME_UNITS ++ DISTANCE_UNITS)
    (hut : jvalEqStr τ "time" = true → u ∈ TIME_UNITS)
    (hud : jvalEqStr τ "distance" = true → u ∈ DISTANCE_UNITS) :
    intervalGood (.obj [("name", nm), ("type", τ), ("duration_or_distance", .num q),
      ("unit", .str u), ("repetitions", .int r)]) := by
  have h1 : ¬ (jvalEqStr τ "time" = true ∧ jvalInStrs (.str u) TIME_UNITS = false) := by
    rintro ⟨hjt, hju⟩
    rw [jvalInStrs_of_mem (hut hjt)] at hju
    simp at hju
  have h2 : ¬ (jvalEqStr τ "distance" = true ∧
      jvalInStrs (.str u) DISTANCE_UNITS = false) := by
    rintro ⟨hjt, hju⟩
    rw [jvalInStrs_of_mem (hud hjt)] at hju
    simp at hju
  intro n
  rw [_validate_interval]
  simp [pyContains, pyGet, hasKey, dlookup, List.find?, validateOptField,
    validateRequiredSuffix, jvalInStrs_of_mem humem, h1, h2]
end Promethia
namespace Promethia
theorem SubsGood_nil : SubsGood [] := by
  intro s hs
  simp at hs

theorem SubsGood_append_work {subs : List JVal} {w : JVal}
    (h : SubsGood subs) (hw : workGood w) :
    SubsGood (subs ++ [.obj [("work", w)]]) := by
  intro s hs
  rcases List.mem_append.1 hs with hs' | hs'
  · exact h s hs'
  · rcases List.mem_singleton.1 hs' with rfl
    exact ⟨w, hw, Or.inl rfl⟩

theorem SubsGood_setLastRest {subs : List JVal} {r : JVal}
    (h : SubsGood subs) (hr : restGood r) :
    SubsGood (setLastField subs "rest" r) := by
  rw [setLastField]
  rcases hl : subs.getLast? with - | lastv
  · exact h
  · have hlm : lastv ∈ subs := List.mem_of_getLast?_eq_some hl
    rcases h lastv hlm with ⟨w, hw, hshape | ⟨r0, hr0, hshape⟩⟩
    · subst hshape
      intro s hs
      rcases List.mem_append.1 hs with hs' | hs'
      · exact h s (List.dropLast_subset _ hs')
      · rcases List.mem_singleton.1 hs' with rfl
        exact ⟨w, hw, Or.inr ⟨r, hr, by simp [dictSet, hasKey]⟩⟩
    · subst hshape
      intro s hs
      rcases List.mem_append.1 hs with hs' | hs'
      · exact h s (List.dropLast_subset _ hs')
      · rcases List.mem_singleton.1 hs' with rfl
        exact ⟨w, hw, Or.inr ⟨r, hr, by simp [dictSet, hasKey]⟩⟩
end Promethia
namespace Promethia
theorem jvalEqStr_true {v : JVal} {t : String} (h : jvalEqStr v t = true) :
    v = .str t := by
  cases v <;> simp [jvalEqStr] at h ⊢
  exact h

theorem appendWorkCaseGood {subs subs' : List JVal} {cfs : List (String × JVal)}
    {n : ℚ} {u : String}
    (hci : childIntensityOK (.obj cfs))
    (hsubs : SubsGood subs)
    (hut : jvalEqStr (pyOrD (dget cfs "intervalType") (.str "time")) "time" = true →
      u ∈ TIME_UNITS)
    (hud : jvalEqStr (pyOrD (dget cfs "intervalType") (.str "time")) "distance" = true →
      u ∈ DISTANCE_UNITS)
    (h : (if is_none (dget cfs "intensity") = true then
        (pure (subs ++ [JVal.obj [("work", JVal.obj
          [("name", pyOrD (dget cfs "name") (JVal.str "Work")),
           ("type", pyOrD (dget cfs "intervalType") (JVal.str "time")),
           ("duration_or_distance", JVal.num n),
           ("unit", JVal.str u)])]]) : Except String (List JVal))
      else
        map_intensity_unit (dget cfs "intensityUnit") >>= fun child_zone_type =>
          pure (subs ++ [JVal.obj [("work", JVal.obj
            ([("name", pyOrD (dget cfs "name") (JVal.str "Work")),
              ("type", pyOrD (dget cfs "intervalType") (JVal.str "time")),
              ("duration_or_distance", JVal.num n),
              ("unit", JVal.str u)] ++
             ([("intensity", (dget cfs "intensity").getD JVal.null)] ++
              (match child_zone_type with
               | some z => if truthy z = true then [("zone_type", z)] else []
               | none => []))))]])) = .ok subs') :
    SubsGood subs' := by
  by_cases hin : is_none (dget cfs "intensity") = true
  · rw [if_pos hin] at h
    simp only [except_pure_eq_ok, Except.ok.injEq] at h
    subst h
    refine SubsGood_append_work hsubs ?_
    have hw := @workPayloadGood (pyOrD (dget cfs "name") (JVal.str "Work"))
      (pyOrD (dget cfs "intervalType") (JVal.str "time")) n u [] hut hud (Or.inl rfl)
    simpa using hw
  · rw [if_neg hin] at h
    have hfacts := hci (Bool.eq_false_iff.2 hin)
    rcases hfacts with ⟨hp1, hp2, hp3, hz⟩
    rcases hmi : map_intensity_unit (dget cfs "intensityUnit") with e | zo
    · rw [hmi] at h; exact absurd h (by simp)
    · rw [hmi] at h
      simp only [except_ok_bind, except_pure_eq_ok, Except.ok.injEq] at h
      subst h
      rcases zo with - | z
      · refine SubsGood_append_work hsubs ?_
        have hw := @workPayloadGood (pyOrD (dget cfs "name") (JVal.str "Work"))
          (pyOrD (dget cfs "intervalType") (JVal.str "time")) n u
          [("intensity", (dget cfs "intensity").getD JVal.null)]
          hut hud (Or.inr (Or.inl ⟨_, rfl, hp1, hp2, hp3⟩))
        simpa using hw
      · by_cases htr : truthy z = true
        · refine SubsGood_append_work hsubs ?_
          have hw := @workPayloadGood (pyOrD (dget cfs "name") (JVal.str "Work"))
            (pyOrD (dget cfs "intervalType") (JVal.str "time")) n u
            [("intensity", (dget cfs "intensity").getD JVal.null), ("zone_type", z)]
            hut hud (Or.inr (Or.inr ⟨_, z, rfl, hp1, hp2, hp3, hz z hmi htr⟩))
          simpa [htr] using hw
        · refine SubsGood_append_work hsubs ?_
          have hw := @workPayloadGood (pyOrD (dget cfs "name") (JVal.str "Work"))
            (pyOrD (dget cfs "intervalType") (JVal.str "time")) n u
            [("intensity", (dget cfs "intensity").getD JVal.null)]
            hut hud (Or.inr (Or.inl ⟨_, rfl, hp1, hp2, hp3⟩))
          simpa [htr] using hw

theorem processChild_good {subs subs' : List JVal} {c : JVal}
    (hci : childIntensityOK c)
    (h : processChild subs c = .ok subs')
    (hsubs : SubsGood subs) : SubsGood subs' := by
  cases c
  case obj cfs =>
    rw [processChild] at h
    simp only [except_ok_bind] at h
    rcases hlt : pyLower (pyOrD (dget cfs "type") (.str "")) with e | ct
    · rw [hlt] at h; exact absurd h (by simp)
    · rw [hlt] at h
      simp only [except_ok_bind] at h
      by_cases h1 : ct = "interval"
      · rw [if_pos (by simp [h1])] at h
        split at h
        · simp only [except_pure_eq_ok, Except.ok.injEq] at h
          exact h ▸ hsubs
        · rename_i n hn
          by_cases hτ : jvalEqStr (pyOrD (dget cfs "intervalType") (.str "time")) "time"
            = true
          · rw [if_pos hτ] at h
            rcases hmc : map_duration_unit (dget cfs "durationUnit") with e | cu
            · rw [hmc] at h; exact absurd h (by simp)
            · rw [hmc] at h
              simp only [except_ok_bind] at h
              refine appendWorkCaseGood hci hsubs (fun _ => ?_) (fun hd => ?_) h
              · rcases cu with - | s
                · simp [hτ, TIME_UNITS]
                · simpa using map_duration_unit_mem hmc
              · rw [jvalEqStr_true hd] at hτ
                simp [jvalEqStr] at hτ
          · rw [if_neg hτ] at h
            rcases hmc : map_distance_unit (dget cfs "distanceUnit") with e | cu
            · rw [hmc] at h; exact absurd h (by simp)
            · rw [hmc] at h
              simp only [except_ok_bind] at h
              refine appendWorkCaseGood hci hsubs (fun ht => absurd ht hτ) (fun _ => ?_) h
              rcases cu with - | s
              · simp [hτ, DISTANCE_UNITS]
              · simpa using map_distance_unit_mem hmc
      · rw [if_neg (by simp [h1])] at h
        by_cases h2 : ct = "rest"
        · rw [if_pos (by simp [h2])] at h
          split at h
          · rename_i n hn
            by_cases hne : subs.isEmpty
            · rw [if_neg (by simp [hne])] at h
              simp only [except_pure_eq_ok, Except.ok.injEq] at h
              exact h ▸ hsubs
            · rw [if_pos (by simp [hne])] at h
              rcases hmc : map_duration_unit (dget cfs "durationUnit") with e | ru
              · rw [hmc] at h; exact absurd h (by simp)
              · rw [hmc] at h
                simp only [except_ok_bind, except_pure_eq_ok, Except.ok.injEq] at h
                subst h
                exact SubsGood_setLastRest hsubs (restPayloadGood _ n _)
          · simp only [except_pure_eq_ok, Except.ok.injEq] at h
            exact h ▸ hsubs
        · rw [if_neg (by simp [h2])] at h
          simp only [except_pure_eq_ok, Except.ok.injEq] at h
          exact h ▸ hsubs
  all_goals exact absurd h (by simp [processChild])
end Promethia

namespace Promethia

theorem processChildren_good {subs subs' : List JVal} {cs : List JVal}
    (hci : ∀ c ∈ cs, childIntensityOK c)
    (h : processChildren subs cs = .ok subs')
    (hsubs : SubsGood subs) : SubsGood subs' := by
  induction cs generalizing subs with
  | nil =>
    rw [processChildren] at h
    simp only [Except.ok.injEq] at h
    exact h ▸ hsubs
  | cons c cs ih =>
    rw [processChildren] at h
    rcases hpc : processChild subs c with e | s1
    · rw [hpc] at h; exact absurd h (by simp)
    · rw [hpc] at h
      simp only [except_ok_bind] at h
      exact ih (fun x hx => hci x (List.mem_cons_of_mem _ hx)) h
        (processChild_good (hci c (List.mem_cons_self _ _)) hpc hsubs)

theorem simpleIntervalStep_good {st st2 : NormState} {b : List (String × JVal)}
    {name : JVal} {dv : Option JVal} {du : Option String}
    (hdu : ∀ s, du = some s → s ∈ TIME_UNITS)
    (h : simpleIntervalStep st b name dv du = .ok st2)
    (hst : stateGood st) : stateGood st2 := by
  simp only [stateGood] at hst
  rw [simpleIntervalStep] at h
  by_cases hτ : jvalEqStr (pyOrD (dget b "intervalType") (.str "time")) "time" = true
  · rw [if_pos hτ] at h
    simp only [except_pure_eq_ok, except_ok_bind] at h
    split at h
    · rename_i n hn
      simp only [except_pure_eq_ok, Except.ok.injEq] at h
      subst h
      refine ⟨hst.1, hst.2.1, ?_, hst.2.2.2⟩
      intro iv hiv
      rcases List.mem_append.1 hiv with h1 | h1
      · exact hst.2.2.1 iv h1
      · rcases List.mem_singleton.1 h1 with rfl
        have hu : (du.getD (if jvalEqStr (pyOrD (dget b "intervalType") (.str "time"))
            "time" = true then "minutes" else "meters")) ∈ TIME_UNITS := by
          rcases du with - | s
          · simp [hτ, TIME_UNITS]
          · simpa using hdu s rfl
        exact simpleIntervalGood (List.mem_append.2 (Or.inl hu)) (fun _ => hu)
          (fun hd => by rw [jvalEqStr_true hd] at hτ; simp [jvalEqStr] at hτ)
    · simp only [except_pure_eq_ok, Except.ok.injEq] at h
      exact h ▸ (by exact ⟨hst.1, hst.2.1, hst.2.2.1, hst.2.2.2⟩)
  · rw [if_neg hτ] at h
    rcases hmd : map_distance_unit (dget b "distanceUnit") with e | cu
    · rw [hmd] at h; exact absurd h (by simp)
    · rw [hmd] at h
      simp only [except_ok_bind] at h
      split at h
      · rename_i n hn
        simp only [except_pure_eq_ok, Except.ok.injEq] at h
        subst h
        refine ⟨hst.1, hst.2.1, ?_, hst.2.2.2⟩
        intro iv hiv
        rcases List.mem_append.1 hiv with h1 | h1
        · exact hst.2.2.1 iv h1
        · rcases List.mem_singleton.1 h1 with rfl
          have hu : (cu.getD (if jvalEqStr (pyOrD (dget b "intervalType") (.str "time"))
              "time" = true then "minutes" else "meters")) ∈ DISTANCE_UNITS := by
            rcases cu with - | s
            · simp [hτ, DISTANCE_UNITS]
            · simpa using map_distance_unit_mem hmd
          exact simpleIntervalGood (List.mem_append.2 (Or.inr hu))
            (fun ht => absurd ht hτ) (fun _ => hu)
      · simp only [except_pure_eq_ok, Except.ok.injEq] at h
        exact h ▸ (by exact ⟨hst.1, hst.2.1, hst.2.2.1, hst.2.2.2⟩)

theorem processBlock_good {st st2 : NormState} {b : JVal}
    (hbi : blockIntensityOK b)
    (h : processBlock st b = .ok st2)
    (hst : stateGood st) : stateGood st2 := by
  cases b
  case obj bfs =>
    have hst0 : (∀ w, st.warmup = some w → phaseGood w) ∧
        (∀ c, st.cooldown = some c → phaseGood c) ∧
        (∀ iv ∈ st.intervals, intervalGood iv) ∧
        (∀ r ∈ st.rest_periods, phaseGood r) := hst
    rw [processBlock] at h
    simp only [except_ok_bind] at h
    rcases hlt : pyLower (pyOrD (dget bfs "type") (.str "")) with e | bt
    · rw [hlt] at h; exact absurd h (by simp)
    · rw [hlt] at h
      simp only [except_ok_bind] at h
      rcases hdu : map_duration_unit (dget bfs "durationUnit") with e | du
      · rw [hdu] at h; exact absurd h (by simp)
      · rw [hdu] at h
        simp only [except_ok_bind] at h
        have hduT : ∀ s, du = some s → s ∈ TIME_UNITS :=
          fun s hs => map_duration_unit_mem (hs ▸ hdu)
        have humem : (du.getD "minutes") ∈ TIME_UNITS ++ DISTANCE_UNITS := by
          rcases du with - | s
          · simp [TIME_UNITS, DISTANCE_UNITS]
          · exact List.mem_append.2 (Or.inl (by simpa using hduT s rfl))
        by_cases hwc : (bt = "warmup" ∨ bt = "cooldown")
        · rw [if_pos hwc] at h
          split at h
          · simp only [except_pure_eq_ok, Except.ok.injEq] at h
            exact h ▸ hst
          · rename_i nd hnd
            by_cases hwm : bt = "warmup"
            · rw [if_pos hwm] at h
              simp only [except_pure_eq_ok, Except.ok.injEq] at h
              subst h
              exact ⟨fun w hw => (Option.some.inj hw) ▸ phasePayloadGood humem,
                hst0.2.1, hst0.2.2.1, hst0.2.2.2⟩
            · rw [if_neg hwm] at h
              simp only [except_pure_eq_ok, Except.ok.injEq] at h
              subst h
              exact ⟨hst0.1, fun c hc => (Option.some.inj hc) ▸ phasePayloadGood humem,
                hst0.2.2.1, hst0.2.2.2⟩
        · rw [if_neg hwc] at h
          by_cases hbint : bt = "interval"
          · rw [if_pos hbint] at h
            split at h
            · rename_i cs hcs
              by_cases hce : cs.isEmpty
              · rw [if_neg (by simp [hce])] at h
                exact simpleIntervalStep_good hduT h hst
              · rw [if_pos (by simp [hce])] at h
                rcases hps : processChildren [] cs with e | subs
                · rw [hps] at h; exact absurd h (by simp)
                · rw [hps] at h
                  simp only [except_ok_bind] at h
                  have hsg : SubsGood subs :=
                    processChildren_good (hbi cs hcs) hps SubsGood_nil
                  by_cases hse : subs.isEmpty
                  · rw [if_neg (by simp [hse])] at h
                    simp only [except_pure_eq_ok, Except.ok.injEq] at h
                    exact h ▸ hst
                  · rw [if_pos (by simp [hse])] at h
                    simp only [except_pure_eq_ok, Except.ok.injEq] at h
                    subst h
                    refine ⟨hst0.1, hst0.2.1, ?_, hst0.2.2.2⟩
                    intro iv hiv
                    rcases List.mem_append.1 hiv with h1 | h1
                    · exact hst0.2.2.1 iv h1
                    · rcases List.mem_singleton.1 h1 with rfl
                      exact complexIntervalGood
                        (ensure_positive_int_pos _ 1 one_pos)
                        (by simpa [List.isEmpty_iff] using hse) hsg
            all_goals exact simpleIntervalStep_good hduT h hst
          · rw [if_neg hbint] at h
            by_cases hbr : bt = "rest"
            · rw [if_pos hbr] at h
              split at h
              · rename_i n hn
                simp only [except_pure_eq_ok, Except.ok.injEq] at h
                subst h
                refine ⟨hst0.1, hst0.2.1, hst0.2.2.1, ?_⟩
                intro r hrr
                rcases List.mem_append.1 hrr with h1 | h1
                · exact hst0.2.2.2 r h1
                · rcases List.mem_singleton.1 h1 with rfl
                  exact phasePayloadGood humem
              · simp only [except_pure_eq_ok, Except.ok.injEq] at h
                exact h ▸ hst
            · rw [if_neg hbr] at h
              simp only [except_pure_eq_ok, Except.ok.injEq] at h
              exact h ▸ hst
  all_goals exact absurd h (by simp [processBlock])

theorem processBlocks_good {st st2 : NormState} {bs : List JVal}
    (hbi : ∀ b ∈ bs, blockIntensityOK b)
    (h : processBlocks st bs = .ok st2)
    (hst : stateGood st) : stateGood st2 := by
  induction bs generalizing st with
  | nil =>
    rw [processBlocks] at h
    simp only [Except.ok.injEq] at h
    exact h ▸ hst
  | cons b bs ih =>
    rw [processBlocks] at h
    rcases hpb : processBlock st b with e | s1
    · rw [hpb] at h; exact absurd h (by simp)
    · rw [hpb] at h
      simp only [except_ok_bind] at h
      exact ih (fun x hx => hbi x (List.mem_cons_of_mem _ hx)) h
        (processBlock_good (hbi b (List.mem_cons_self _ _)) hpb hst)

theorem buildOutput_ok {st : NormState} (hst : stateGood st) :
    _validate_training_data (buildOutput st) = .ok () := by
  obtain ⟨wo, co, ivs, rps⟩ := st
  have hst0 : (∀ w, wo = some w → phaseGood w) ∧
      (∀ c, co = some c → phaseGood c) ∧
      (∀ iv ∈ ivs, intervalGood iv) ∧
      (∀ r ∈ rps, phaseGood r) := hst
  obtain ⟨hw, hc, hi, hr⟩ := hst0
  have hI : validateListIdx (fun i iv => _validate_interval iv
      ("intervals[" ++ toString i ++ "]")) 0 ivs = .ok () :=
    validateListIdx_ok_of _ _ _ (fun j x hx => hi x hx _)
  have hR : validateListIdx (fun i r => _validate_phase r
      ("rest_periods[" ++ toString i ++ "]")) 0 rps = .ok () :=
    validateListIdx_ok_of _ _ _ (fun j x hx => hr x hx _)
  rcases wo with - | w
  · rcases co with - | c
    · by_cases hie : ivs.isEmpty <;> by_cases hre : rps.isEmpty <;>
        simp [buildOutput, _validate_training_data, validateOptField, pyContains,
          pyGetItem, hasKey, dlookup, List.find?, hie, hre, hI, hR]
    · have hpc : ∀ n, _validate_phase c n = .ok () := hc c rfl
      by_cases hie : ivs.isEmpty <;> by_cases hre : rps.isEmpty <;>
        simp [buildOutput, _validate_training_data, validateOptField, pyContains,
          pyGetItem, hasKey, dlookup, List.find?, hie, hre, hI, hR, hpc]
  · have hpw : ∀ n, _validate_phase w n = .ok () := hw w rfl
    rcases co with - | c
    · by_cases hie : ivs.isEmpty <;> by_cases hre : rps.isEmpty <;>
        simp [buildOutput, _validate_training_data, validateOptField, pyContains,
          pyGetItem, hasKey, dlookup, List.find?, hie, hre, hI, hR, hpw]
    · have hpc : ∀ n, _validate_phase c n = .ok () := hc c rfl
      by_cases hie : ivs.isEmpty <;> by_cases hre : rps.isEmpty <;>
        simp [buildOutput, _validate_training_data, validateOptField, pyContains,
          pyGetItem, hasKey, dlookup, List.find?, hie, hre, hI, hR, hpw, hpc]

end Promethia

namespace Promethia

theorem c1okBlocks_intensityOK : ∀ b ∈ c1okBlocks, blockIntensityOK b := by
  intro b hb
  simp only [c1okBlocks, List.mem_cons, List.not_mem_nil, or_false] at hb
  rcases hb with rfl | rfl | rfl | rfl
  · intro cs hcs
    rw [show (dget [("type", JVal.str "warmup"), ("name", JVal.str "Warm Up"),
      ("duration", JVal.int 10), ("durationUnit", JVal.str "min")]
      "children").getD (.arr []) = .arr [] from rfl] at hcs
    injection hcs with h
    subst h
    simp
  · intro cs hcs
    rw [show (dget [("type", JVal.str "interval"), ("name", JVal.str "Tempo"),
      ("duration", JVal.int 4), ("repetitions", JVal.int 5)]
      "children").getD (.arr []) = .arr [] from rfl] at hcs
    injection hcs with h
    subst h
    simp
  · intro cs hcs
    rw [show (dget [("type", JVal.str "interval"), ("name", JVal.str "Main Set"),
      ("children", JVal.arr
        [JVal.obj [("type", JVal.str "interval"), ("intervalType", JVal.str "distance"),
                   ("distance", JVal.int 400), ("intensity", JVal.int 95),
                   ("intensityUnit", JVal.str "heart_rate")],
         JVal.obj [("type", JVal.str "rest"), ("duration", JVal.int 90)]])]
      "children").getD (.arr []) =
      .arr [JVal.obj [("type", JVal.str "interval"),
                      ("intervalType", JVal.str "distance"),
                      ("distance", JVal.int 400), ("intensity", JVal.int 95),
                      ("intensityUnit", JVal.str "heart_rate")],
            JVal.obj [("type", JVal.str "rest"), ("duration", JVal.int 90)]]
      from rfl] at hcs
    injection hcs with h
    subst h
    intro c hc
    simp only [List.mem_cons, List.not_mem_nil, or_false] at hc
    rcases hc with rfl | rfl
    · intro him
      refine ⟨by decide, by decide, by decide, ?_⟩
      intro z hz htr
      rw [show map_intensity_unit (dget [("type", JVal.str "interval"),
        ("intervalType", JVal.str "distance"), ("distance", JVal.int 400),
        ("intensity", JVal.int 95), ("intensityUnit", JVal.str "heart_rate")]
        "intensityUnit") = .ok (some (.str "HR")) from rfl] at hz
      injection hz with h1
      injection h1 with h2
      subst h2
      decide
    · intro him
      exact absurd him (by decide)
  · intro cs hcs
    rw [show (dget [("type", JVal.str "rest"), ("duration", JVal.int 2)]
      "children").getD (.arr []) = .arr [] from rfl] at hcs
    injection hcs with h
    subst h
    simp

/-- **C1** (counterexample).  The normalizer is not validated against the
model-level workout validator on the `intensity` it copies through
verbatim: a complex-interval child with `intensity = 200` normalizes
successfully, yet the normalized structure is rejected by
`_validate_training_data`.  The round-trip claim as stated is false. -/
theorem claim_c1_counterexample :
    (normalize_training_blocks c1cexBlocks).bind _validate_training_data =
      .error "intervals[0].sub_intervals[0].work intensity must be between 0 and 150 percent." :=
  rfl

/-- **C1** (amended).  The round-trip law holds on every block list whose
complex-interval children carry only in-range intensities and valid zone
types (the two fields the normalizer forwards without re-validating):
whenever `normalize_training_blocks` succeeds on such blocks, the
model-level validator `_validate_training_data` accepts its output. -/
theorem claim_c1_roundtrip_amended {blocks : List JVal} {W : JVal}
    (hbi : ∀ b ∈ blocks, blockIntensityOK b)
    (h : normalize_training_blocks blocks = .ok W) :
    _validate_training_data W = .ok () := by
  rw [normalize_training_blocks] at h
  by_cases he : blocks.isEmpty
  · rw [if_pos he] at h
    simp only [Except.ok.injEq] at h
    subst h
    rfl
  · rw [if_neg he] at h
    rcases hpb : processBlocks ⟨none, none, [], []⟩ blocks with e | st
    · rw [hpb] at h; exact absurd h (by simp)
    · rw [hpb] at h
      simp only [except_ok_bind, except_pure_eq_ok, Except.ok.injEq] at h
      subst h
      refine buildOutput_ok (processBlocks_good hbi hpb ?_)
      exact ⟨fun w hw => by simp at hw, fun c hc => by simp at hc,
        fun iv hiv => by simp at hiv, fun r hr => by simp at hr⟩

/-- Witness for C1 (amended): the four-block workout `c1okBlocks`
normalizes successfully and its output passes model validation. -/
theorem claim_c1_roundtrip_amended_witness :
    _validate_training_data ((normalize_training_blocks c1okBlocks).toOption.getD .null)
      = .ok () :=
  claim_c1_roundtrip_amended c1okBlocks_intensityOK rfl

end Promethia
